import Mathlib

/-!
Verification of the app-manifest assembly core.

A shallow embedding of the `app_manifest` Python package's core logic:

* `src/app_manifest/services/purl.py` — reference parsing and Package-URL
  derivation (`_parse_docker_ref_parts`, `make_docker_purl`, `make_helm_purl`,
  `_resolve_registry_name`, `_namespace_matches`, `_hosts_match`);
* `src/app_manifest/models/config.py` — the build-configuration data model;
* `src/app_manifest/models/cyclonedx.py` — the CycloneDX output data model and
  the identifier generator `_make_bom_ref`;
* `src/app_manifest/services/manifest_builder.py` — the manifest assembler
  (`build_manifest` and its helpers).

Modelling conventions:

* Python strings are Lean `String`s; the string operations used by the source
  (`split`, `rsplit(sep, 1)`, `startswith`, `in`, `rstrip`, slicing) are
  re-implemented over `String.data` so that everything reduces in the kernel.
* `uuid.uuid4()` is modelled by an ambient supply `u : Nat → String` together
  with a draw counter threaded through the assembly in the source's execution
  order (one draw per declared component, then the application, then nested
  descriptor components during the top-level loop, finally the BOM serial
  number).
* Python `dict`s are association lists; assignment appends in iteration order
  and lookup takes the *last* matching binding, which reproduces
  last-write-wins.  Indexing a missing key (Python `KeyError`) is modelled by
  propagating an `Except.error`; `.get` is a total `Option` lookup.
* Python `set` iteration order (used only when emitting sub-chart dependency
  entries) is modelled as insertion order.
* Python truthiness on optional strings (`x or y`, `if not x`) is modelled
  explicitly: `none` and the empty string both fall through.
-/

/-! ## Python-style string helpers -/

/-- `str.split(sep)` on a one-character separator, keeping empty pieces:
`splitChar '/' "a//b".data = [['a'], [], ['b']]` and splitting the empty
string yields `[[]]`, as in Python. -/
def splitChar (sep : Char) : List Char → List (List Char)
  | [] => [[]]
  | c :: rest =>
    let r := splitChar sep rest
    if c = sep then [] :: r
    else
      match r with
      | [] => [[c]]
      | h :: t => (c :: h) :: t

/-- `s.split(sep)` for a one-character separator `sep`. -/
def pySplit (s : String) (sep : Char) : List String :=
  (splitChar sep s.data).map String.mk

/-- `sep.join(parts)` . -/
def joinSep (sep : String) : List String → String
  | [] => ""
  | [x] => x
  | x :: xs => x ++ sep ++ joinSep sep xs

/-- Python `c in s` for a single character `c`. -/
def strContains (s : String) (c : Char) : Bool :=
  s.data.contains c

/-- Python `s.startswith(pre)`. -/
def pyStartsWith (s pre : String) : Bool :=
  pre.data.isPrefixOf s.data

/-- Python `s[n:]` (character-based slicing). -/
def strDrop (s : String) (n : Nat) : String :=
  String.mk (s.data.drop n)

/-- Python `s.rsplit(sep, 1)` for a one-character separator, assuming the
separator occurs (the source always guards the call with `sep in s`):
returns the text before the last separator and the text after it. -/
def pyRsplit1 (s : String) (sep : Char) : String × String :=
  let parts := pySplit s sep
  (joinSep (String.mk [sep]) parts.dropLast, parts.getLastD "")

/-- Python `s.rstrip("/")`: drop every trailing `'/'`. -/
def rstripSlash (s : String) : String :=
  String.mk ((s.data.reverse.dropWhile (fun c => c = '/')).reverse)

/-! ## Registry-definition data model (`models/regdef.py`) -/

/-- `DockerConfig` from `models/regdef.py`. -/
structure DockerConfig where
  group_uri : Option String
  group_name : Option String
  snapshot_uri : Option String
  staging_uri : Option String
  release_uri : Option String
deriving DecidableEq, Repr

/-- `HelmAppConfig` from `models/regdef.py`. -/
structure HelmAppConfig where
  repository_domain_name : Option String
  helm_group_repo_name : Option String
deriving DecidableEq, Repr

/-- `RegistryDefinition` from `models/regdef.py` (the `githubReleaseConfig`
section is never consulted by the purl code and is omitted). -/
structure RegistryDefinition where
  version : String
  name : String
  docker_config : Option DockerConfig
  helm_app_config : Option HelmAppConfig
deriving DecidableEq, Repr

/-! ## Package-URL derivation (`services/purl.py`) -/

/-- `_parse_docker_ref_parts` from `services/purl.py`: split a Docker
reference into `(registry, namespace, name, version)`. -/
def _parse_docker_ref_parts (reference : String) : String × String × String × String :=
  let ref := if pyStartsWith reference "docker://" then strDrop reference 9 else reference
  let parts := pySplit ref '/'
  let hnt :=
    if parts.length ≥ 3 then
      (parts.headD "", joinSep "/" (parts.drop 1).dropLast, parts.getLastD "")
    else if parts.length = 2 then
      let p0 := parts.headD ""
      let p1 := (parts.drop 1).headD ""
      if strContains p0 '.' || strContains p0 ':' then (p0, "", p1)
      else ("docker.io", p0, p1)
    else
      ("docker.io", "library", parts.headD "")
  let nv :=
    if strContains hnt.2.2 ':' then pyRsplit1 hnt.2.2 ':'
    else if strContains hnt.2.2 '@' then pyRsplit1 hnt.2.2 '@'
    else (hnt.2.2, "latest")
  (hnt.1, hnt.2.1, nv.1, nv.2)

/-- `parse_docker_reference` from `services/purl.py`: returns
`(name, version, namespace)`. -/
def parse_docker_reference (reference : String) : String × String × String :=
  let p := _parse_docker_ref_parts reference
  (p.2.2.1, p.2.2.2, p.2.1)

/-- `_hosts_match` from `services/purl.py`. -/
def _hosts_match (host uri : String) : Bool :=
  let clean_uri :=
    if pyStartsWith uri "oci://" then strDrop uri 6
    else if pyStartsWith uri "https://" then strDrop uri 8
    else if pyStartsWith uri "http://" then strDrop uri 7
    else if pyStartsWith uri "docker://" then strDrop uri 9
    else uri
  let clean_uri := rstripSlash clean_uri
  let host := rstripSlash host
  host = clean_uri

/-- `_namespace_matches` from `services/purl.py`: exact equality with the
group name, or the namespace starts with `group_name + "/"`. -/
def _namespace_matches (ns group_name : String) : Bool :=
  ns = group_name || pyStartsWith ns (group_name ++ "/")

/-- One step of the `for uri in uris` loop of `_resolve_registry_name`:
Python `uri and _hosts_match(registry_host, uri)`. -/
def uriOk (registry_host : String) (uri? : Option String) : Bool :=
  match uri? with
  | none => false
  | some uri => uri ≠ "" && _hosts_match registry_host uri

/-- `_resolve_registry_name` from `services/purl.py`.  The Python loop
returns `regdef.name` on the first URI whose host matches, provided the
namespace gate passes; since the namespace gate does not depend on the URI,
this is `any` over the four URIs conjoined with the gate. -/
def _resolve_registry_name (registry_host artifact_type : String)
    (regdef? : Option RegistryDefinition) (ns : String) : String :=
  match regdef? with
  | none => registry_host
  | some rd =>
    let dockerHit :=
      artifact_type = "docker" &&
        (match rd.docker_config with
         | none => false
         | some dc =>
           [dc.group_uri, dc.snapshot_uri, dc.staging_uri, dc.release_uri].any
               (uriOk registry_host) &&
             (match dc.group_name with
              | none => true
              | some gn => gn = "" || _namespace_matches ns gn))
    if dockerHit then rd.name
    else
      let helmHit :=
        artifact_type = "helm" &&
          (match rd.helm_app_config with
           | none => false
           | some hc =>
             match hc.repository_domain_name with
             | none => false
             | some d => d ≠ "" && _hosts_match registry_host d)
      if helmHit then rd.name else registry_host

/-- `make_docker_purl` from `services/purl.py`; `raise ValueError` is
modelled as `Except.error` carrying the exact message. -/
def make_docker_purl (reference : String) (regdef? : Option RegistryDefinition) :
    Except String String :=
  let p := _parse_docker_ref_parts reference
  let registry := p.1
  let ns := p.2.1
  let name := p.2.2.1
  let version := p.2.2.2
  if name = "" then
    .error ("Invalid Docker reference: cannot parse image name from '" ++ reference ++ "'")
  else if registry = "" then
    .error ("Invalid Docker reference: cannot determine registry from '" ++ reference ++ "'")
  else
    let registry_name := _resolve_registry_name registry "docker" regdef? ns
    if ns ≠ "" then
      .ok ("pkg:docker/" ++ ns ++ "/" ++ name ++ "@" ++ version ++ "?registry_name=" ++ registry_name)
    else
      .ok ("pkg:docker/" ++ name ++ "@" ++ version ++ "?registry_name=" ++ registry_name)

/-- The reference-splitting block inlined in `make_helm_purl`
(`services/purl.py` lines 111–142): returns
`(registry, namespace, name, version)`; a missing tag yields version `""`. -/
def helmRefParts (reference : String) : String × String × String × String :=
  let ref :=
    if pyStartsWith reference "oci://" then strDrop reference 6
    else if pyStartsWith reference "https://" then strDrop reference 8
    else if pyStartsWith reference "http://" then strDrop reference 7
    else reference
  let parts := pySplit ref '/'
  let hnt :=
    if parts.length ≥ 3 then
      (parts.headD "", joinSep "/" (parts.drop 1).dropLast, parts.getLastD "")
    else if parts.length = 2 then
      (parts.headD "", "", (parts.drop 1).headD "")
    else
      ("", "", parts.headD "")
  let nv :=
    if strContains hnt.2.2 ':' then pyRsplit1 hnt.2.2 ':'
    else (hnt.2.2, "")
  (hnt.1, hnt.2.1, nv.1, nv.2)

/-- `make_helm_purl` from `services/purl.py`. -/
def make_helm_purl (reference : String) (regdef? : Option RegistryDefinition) :
    Except String String :=
  let p := helmRefParts reference
  let registry := p.1
  let ns := p.2.1
  let name := p.2.2.1
  let version := p.2.2.2
  if name = "" then
    .error ("Invalid Helm reference: cannot parse chart name from '" ++ reference ++ "'")
  else if version = "" then
    .error ("Invalid Helm reference: version is required in '" ++ reference ++ "'")
  else if registry = "" then
    .error ("Invalid Helm reference: cannot determine registry from '" ++ reference ++ "'")
  else
    let registry_name := _resolve_registry_name registry "helm" regdef? ""
    if ns ≠ "" then
      .ok ("pkg:helm/" ++ ns ++ "/" ++ name ++ "@" ++ version ++ "?registry_name=" ++ registry_name)
    else
      .ok ("pkg:helm/" ++ name ++ "@" ++ version ++ "?registry_name=" ++ registry_name)

example : _parse_docker_ref_parts "nginx:1.27.0" = ("docker.io", "library", "nginx", "1.27.0") := by
  decide

example : make_docker_purl "docker.io/prom/prometheus:v2.52.0" none =
    .ok "pkg:docker/prom/prometheus@v2.52.0?registry_name=docker.io" := rfl

example : _namespace_matches "netcracker-fork" "netcracker" = false := by decide

/-! ## Build-configuration data model (`models/config.py`) -/

/-- The `MimeType` enumeration from `models/config.py`. -/
inductive MimeType : Type where
  | STANDALONE_RUNNABLE
  | DOCKER_IMAGE
  | HELM_CHART
  | SMARTPLUG
  | SAMPLEREPO
  | CDN
  | CRD
  | JOB
  | Q_STANDALONE_RUNNABLE
  | Q_HELM_CHART
  | Q_SMARTPLUG
  | Q_SAMPLEREPO
  | Q_CDN
  | Q_CRD
  | Q_JOB
deriving DecidableEq, Repr

/-- The string value of each `MimeType` member. -/
def MimeType.value : MimeType → String
  | .STANDALONE_RUNNABLE => "application/vnd.nc.standalone-runnable"
  | .DOCKER_IMAGE => "application/vnd.docker.image"
  | .HELM_CHART => "application/vnd.nc.helm.chart"
  | .SMARTPLUG => "application/vnd.nc.smartplug"
  | .SAMPLEREPO => "application/vnd.nc.samplerepo"
  | .CDN => "application/vnd.nc.cdn"
  | .CRD => "application/vnd.nc.crd"
  | .JOB => "application/vnd.nc.job"
  | .Q_STANDALONE_RUNNABLE => "application/vnd.qubership.standalone-runnable"
  | .Q_HELM_CHART => "application/vnd.qubership.helm.chart"
  | .Q_SMARTPLUG => "application/vnd.qubership.smartplug"
  | .Q_SAMPLEREPO => "application/vnd.qubership.samplerepo"
  | .Q_CDN => "application/vnd.qubership.cdn"
  | .Q_CRD => "application/vnd.qubership.crd"
  | .Q_JOB => "application/vnd.qubership.job"

/-- `DependencyConfig` from `models/config.py`.  The source field
`values_path_prefix` is rendered here as `values_path_pfx`. -/
structure DependencyConfig where
  name : String
  mime_type : MimeType
  values_path_pfx : Option String
deriving DecidableEq, Repr

/-- `ComponentConfig` from `models/config.py`. -/
structure ComponentConfig where
  name : String
  mime_type : MimeType
  reference : Option String
  depends_on : List DependencyConfig
deriving DecidableEq, Repr

/-- `BuildConfig` from `models/config.py`. -/
structure BuildConfig where
  application_version : String
  application_name : String
  components : List ComponentConfig
deriving DecidableEq, Repr

/-! ## CycloneDX output data model (`models/cyclonedx.py`) -/

/-- `CdxHash` from `models/cyclonedx.py`. -/
structure CdxHash where
  alg : String
  content : String
deriving DecidableEq, Repr

/-- The (duck-typed) value of a `CdxProperty`.  The assembler writes a
boolean (`isLibrary`) or a string-to-record mapping (`artifactMappings`,
whose entries are `ref ↦ {valuesPathPrefix: v}`); descriptor inputs may also
carry plain strings. -/
inductive PropValue : Type where
  | b (v : Bool)
  | s (v : String)
  | mapping (m : List (String × List (String × String)))
deriving DecidableEq, Repr

/-- `CdxProperty` from `models/cyclonedx.py`. -/
structure CdxProperty where
  name : String
  value : PropValue
deriving DecidableEq, Repr

/-- `CdxAttachment` from `models/cyclonedx.py`. -/
structure CdxAttachment where
  content_type : String
  encoding : String
  content : String
deriving DecidableEq, Repr

/-- `CdxDataContents` from `models/cyclonedx.py`. -/
structure CdxDataContents where
  attachment : CdxAttachment
deriving DecidableEq, Repr

/-- `CdxDataEntry` from `models/cyclonedx.py`. -/
structure CdxDataEntry where
  type : String
  name : String
  contents : CdxDataContents
deriving DecidableEq, Repr

/-- `CdxComponent` from `models/cyclonedx.py`.  A recursive record
(`components` nests further components), hence an inductive with one
constructor; field accessors follow. -/
inductive CdxComponent : Type where
  | mk
    (bom_ref : String)
    (type : String)
    (mime_type : String)
    (name : String)
    (version : Option String)
    (group : Option String)
    (purl : Option String)
    (properties : Option (List CdxProperty))
    (hashes : Option (List CdxHash))
    (components : Option (List CdxComponent))
    (data : Option (List CdxDataEntry))

def CdxComponent.bom_ref : CdxComponent → String
  | .mk b _ _ _ _ _ _ _ _ _ _ => b

def CdxComponent.type : CdxComponent → String
  | .mk _ t _ _ _ _ _ _ _ _ _ => t

def CdxComponent.mime_type : CdxComponent → String
  | .mk _ _ m _ _ _ _ _ _ _ _ => m

def CdxComponent.name : CdxComponent → String
  | .mk _ _ _ n _ _ _ _ _ _ _ => n

def CdxComponent.version : CdxComponent → Option String
  | .mk _ _ _ _ v _ _ _ _ _ _ => v

def CdxComponent.group : CdxComponent → Option String
  | .mk _ _ _ _ _ g _ _ _ _ _ => g

def CdxComponent.purl : CdxComponent → Option String
  | .mk _ _ _ _ _ _ p _ _ _ _ => p

def CdxComponent.properties : CdxComponent → Option (List CdxProperty)
  | .mk _ _ _ _ _ _ _ ps _ _ _ => ps

def CdxComponent.hashes : CdxComponent → Option (List CdxHash)
  | .mk _ _ _ _ _ _ _ _ hs _ _ => hs

def CdxComponent.components : CdxComponent → Option (List CdxComponent)
  | .mk _ _ _ _ _ _ _ _ _ cs _ => cs

def CdxComponent.data : CdxComponent → Option (List CdxDataEntry)
  | .mk _ _ _ _ _ _ _ _ _ _ d => d

/-- `model_copy(update={"bom_ref": r})`: copy with only the identifier
replaced. -/
def CdxComponent.withBomRef : CdxComponent → String → CdxComponent
  | .mk _ t m n v g p ps hs cs d, r => .mk r t m n v g p ps hs cs d

/-- `model_copy(update={"bom_ref": …, "version": …, "properties": …,
"components": …})` as performed at the end of `_build_helm_component`. -/
def CdxComponent.withHelmUpdate :
    CdxComponent → String → String → List CdxProperty → List CdxComponent → CdxComponent
  | .mk _ t m n _ g p _ hs _ d, r, v, ps, cs => .mk r t m n (some v) g p (some ps) hs (some cs) d

/-- `CdxDependency` from `models/cyclonedx.py`. -/
structure CdxDependency where
  ref : String
  depends_on : List String
deriving DecidableEq, Repr

/-- `CdxTool` from `models/cyclonedx.py`. -/
structure CdxTool where
  type : String
  name : String
  version : String
deriving DecidableEq, Repr

/-- `CdxToolsWrapper` from `models/cyclonedx.py`. -/
structure CdxToolsWrapper where
  components : List CdxTool
deriving DecidableEq, Repr

/-- `CdxMetadataComponent` from `models/cyclonedx.py`. -/
structure CdxMetadataComponent where
  bom_ref : String
  type : String
  mime_type : String
  name : String
  version : String
deriving DecidableEq, Repr

/-- `CdxMetadata` from `models/cyclonedx.py`. -/
structure CdxMetadata where
  timestamp : String
  component : CdxMetadataComponent
  tools : CdxToolsWrapper
deriving DecidableEq, Repr

/-- `CycloneDxBom` from `models/cyclonedx.py`. -/
structure CycloneDxBom where
  serial_number : String
  schema_url : String
  bom_format : String
  spec_version : String
  version : Nat
  metadata : CdxMetadata
  components : List CdxComponent
  dependencies : List CdxDependency

/-- `_make_bom_ref` from `models/cyclonedx.py`: `f"{name}:{uuid.uuid4()}"`,
with the freshly drawn uuid token passed in as `tok`. -/
def _make_bom_ref (tok name : String) : String :=
  name ++ ":" ++ tok

/-! ## Python `dict` as an association list

Assignment appends a binding in program order; `dictFind?` returns the
*last* matching binding, so later assignments win, as in a `dict`.
`dictInsert` overwrites in place (preserving the original insertion
position of an existing key), matching `d[k] = v`. -/

def dictFind? {κ α : Type} [DecidableEq κ] : List (κ × α) → κ → Option α
  | [], _ => none
  | (k, v) :: rest, k' =>
    match dictFind? rest k' with
    | some r => some r
    | none => if k' = k then some v else none

def dictInsert {κ α : Type} [DecidableEq κ] : List (κ × α) → κ → α → List (κ × α)
  | [], k, v => [(k, v)]
  | (k₀, v₀) :: rest, k, v =>
    if k = k₀ then (k₀, v) :: rest else (k₀, v₀) :: dictInsert rest k v

/-- Python `x or y` on an optional string: `None` and `""` both fall
through to `y`. -/
def pyOr (x : Option String) (y : String) : String :=
  match x with
  | none => y
  | some v => if v = "" then y else v

/-! ## Manifest assembly (`services/manifest_builder.py`) -/

/-- `_DOCKER_TYPES` from `services/manifest_builder.py`. -/
def _DOCKER_TYPES : List MimeType := [.DOCKER_IMAGE]

/-- `_STANDALONE_TYPES` from `services/manifest_builder.py`. -/
def _STANDALONE_TYPES : List MimeType := [.STANDALONE_RUNNABLE, .Q_STANDALONE_RUNNABLE]

/-- `_HELM_TYPES` from `services/manifest_builder.py`. -/
def _HELM_TYPES : List MimeType := [.HELM_CHART, .Q_HELM_CHART]

/-- A declared component's identity: the `(name, mime_type)` pair. -/
abbrev CKey := String × MimeType

/-- The key of a `ComponentConfig`. -/
def ComponentConfig.key (c : ComponentConfig) : CKey := (c.name, c.mime_type)

/-- The key of a `DependencyConfig`. -/
def DependencyConfig.key (d : DependencyConfig) : CKey := (d.name, d.mime_type)

/-- The inner loop of `_find_sub_charts`: add the key of every Helm-typed
dependency edge to the accumulated set (insertion-ordered, no duplicates). -/
def addSubChartDeps : List CKey → List DependencyConfig → List CKey
  | acc, [] => acc
  | acc, dep :: rest =>
    let acc' :=
      if dep.mime_type ∈ _HELM_TYPES then
        if dep.key ∈ acc then acc else acc ++ [dep.key]
      else acc
    addSubChartDeps acc' rest

/-- The outer loop of `_find_sub_charts`. -/
def findSubChartsAux : List CKey → List ComponentConfig → List CKey
  | acc, [] => acc
  | acc, comp :: rest =>
    let acc' :=
      if comp.mime_type ∈ _HELM_TYPES then addSubChartDeps acc comp.depends_on else acc
    findSubChartsAux acc' rest

/-- `_find_sub_charts` from `services/manifest_builder.py`: the set of keys
of Helm-typed dependency edges of Helm-typed declared components. -/
def _find_sub_charts (config : BuildConfig) : List CKey :=
  findSubChartsAux [] config.components

/-- The `bom_refs` dictionary built at the start of `build_manifest`: one
fresh identifier per declared component, drawn in declaration order starting
at draw index `c`.  Duplicate keys are resolved by `dictFind?`'s
last-binding-wins lookup, as in the Python `dict`. -/
def bomRefsFrom (u : Nat → String) : List ComponentConfig → Nat → List (CKey × String)
  | [], _ => []
  | comp :: rest, c =>
    (comp.key, _make_bom_ref (u c) comp.name) :: bomRefsFrom u rest (c + 1)

/-- The `config_index` dictionary comprehension of `build_manifest`. -/
def configIndexFrom : List ComponentConfig → List (CKey × ComponentConfig)
  | [] => []
  | comp :: rest => (comp.key, comp) :: configIndexFrom rest

/-- `_find_mini_manifest` from `services/manifest_builder.py`. -/
def _find_mini_manifest (comp_config : ComponentConfig)
    (mini_manifests : List ((String × String) × CdxComponent)) : Option CdxComponent :=
  dictFind? mini_manifests (comp_config.name, comp_config.mime_type.value)

/-- `_build_docker_component` from `services/manifest_builder.py`. -/
def _build_docker_component (source : CdxComponent) (bom_ref : String) : CdxComponent :=
  source.withBomRef bom_ref

/-- `_build_standalone_component` from `services/manifest_builder.py`:
synthesized from the config, with explicit empty `properties` and
`components` lists. -/
def _build_standalone_component (comp_config : ComponentConfig)
    (bom_ref app_version : String) : CdxComponent :=
  .mk bom_ref "application" comp_config.mime_type.value comp_config.name
    (some app_version) none none (some []) none (some []) none

/-- The loop body of `_build_artifact_mappings`, processed over the
dependency edges in order. -/
def artifactMappingsAux (bom_refs : List (CKey × String)) :
    List (String × List (String × String)) → List DependencyConfig →
    List (String × List (String × String))
  | m, [] => m
  | m, dep :: rest =>
    let m' :=
      if dep.mime_type ∉ _HELM_TYPES then
        match dep.values_path_pfx with
        | some p =>
          match dictFind? bom_refs dep.key with
          | some dep_bom_ref => dictInsert m dep_bom_ref [("valuesPathPrefix", p)]
          | none => m
        | none => m
      else m
    artifactMappingsAux bom_refs m' rest

/-- `_build_artifact_mappings` from `services/manifest_builder.py`: for
each non-Helm dependency edge whose `values_path_prefix` is set and whose
key has a generated identifier, map that identifier to
`{valuesPathPrefix: value}`. -/
def _build_artifact_mappings (comp_config : ComponentConfig)
    (bom_refs : List (CKey × String)) : List (String × List (String × String)) :=
  artifactMappingsAux bom_refs [] comp_config.depends_on

/-- The `properties` list shared by `_build_helm_component` and
`_build_sub_chart`: `isLibrary=false`, plus `artifactMappings` when the
mapping is non-empty. -/
def helmProperties (comp_config : ComponentConfig) (bom_refs : List (CKey × String)) :
    List CdxProperty :=
  let mappings := _build_artifact_mappings comp_config bom_refs
  [CdxProperty.mk "isLibrary" (.b false)] ++
    (if mappings ≠ [] then
      [CdxProperty.mk "qubership:helm.values.artifactMappings" (.mapping mappings)]
    else [])

/-- `_build_sub_chart` from `services/manifest_builder.py`.  NOTE the
source order: `bom_refs[key]` is indexed *before* the `config_index.get`
guard, so an unknown key raises `KeyError` (modelled as `Except.error`)
rather than returning `None`. -/
def _build_sub_chart (key : CKey) (bom_refs : List (CKey × String))
    (config_index : List (CKey × ComponentConfig)) : Except String (Option CdxComponent) :=
  match dictFind? bom_refs key with
  | none => .error ("KeyError: " ++ key.1)
  | some bom_ref =>
    match dictFind? config_index key with
    | none => .ok none
    | some comp_config =>
      .ok (some (.mk bom_ref "application" key.2.value key.1
        none none none (some (helmProperties comp_config bom_refs)) none (some []) none))

/-- The nested-component regeneration loop of `_build_helm_component`:
each pre-existing nested descriptor component gets a fresh identifier,
consuming one draw each. -/
def regenNested (u : Nat → String) : List CdxComponent → Nat → List CdxComponent × Nat
  | [], c => ([], c)
  | comp :: rest, c =>
    let r := regenNested u rest (c + 1)
    (comp.withBomRef (_make_bom_ref (u c) comp.name) :: r.1, r.2)

/-- The sub-chart nesting loop of `_build_helm_component`: for every
dependency edge whose key is a sub-chart key, append the built sub-chart. -/
def nestSubCharts (bom_refs : List (CKey × String))
    (config_index : List (CKey × ComponentConfig)) (sub_chart_keys : List CKey) :
    List DependencyConfig → Except String (List CdxComponent)
  | [] => .ok []
  | dep :: rest =>
    if dep.key ∈ sub_chart_keys then
      match _build_sub_chart dep.key bom_refs config_index with
      | .error e => .error e
      | .ok none => nestSubCharts bom_refs config_index sub_chart_keys rest
      | .ok (some sub) =>
        match nestSubCharts bom_refs config_index sub_chart_keys rest with
        | .error e => .error e
        | .ok subs => .ok (sub :: subs)
    else nestSubCharts bom_refs config_index sub_chart_keys rest

/-- `_build_helm_component` from `services/manifest_builder.py`.  Returns
the built component together with the updated draw counter.  (The
`mini_manifests` parameter is accepted but, as in the source, unused.) -/
def _build_helm_component (u : Nat → String) (comp_config : ComponentConfig)
    (source : CdxComponent) (bom_ref : String) (bom_refs : List (CKey × String))
    (app_version : String) (_mini_manifests : List ((String × String) × CdxComponent))
    (config_index : List (CKey × ComponentConfig)) (sub_chart_keys : List CKey)
    (c : Nat) : Except String (CdxComponent × Nat) :=
  let properties := helmProperties comp_config bom_refs
  let np :=
    match source.components with
    | none => ([], c)
    | some scomps => regenNested u scomps c
  match nestSubCharts bom_refs config_index sub_chart_keys comp_config.depends_on with
  | .error e => .error e
  | .ok subs =>
    let nested := np.1 ++ subs
    let version := pyOr source.version app_version
    .ok (source.withHelmUpdate bom_ref version properties nested, np.2)

/-- `_build_component` from `services/manifest_builder.py`: returns the
optional built component, the optional warning string, and the updated draw
counter. -/
def _build_component (u : Nat → String) (comp_config : ComponentConfig)
    (mini_manifests : List ((String × String) × CdxComponent))
    (bom_refs : List (CKey × String)) (app_version : String)
    (config_index : List (CKey × ComponentConfig)) (sub_chart_keys : List CKey)
    (c : Nat) : Except String (Option CdxComponent × Option String × Nat) :=
  match dictFind? bom_refs comp_config.key with
  | none => .error ("KeyError: " ++ comp_config.name)
  | some bom_ref =>
    if comp_config.mime_type ∈ _STANDALONE_TYPES then
      .ok (some (_build_standalone_component comp_config bom_ref app_version), none, c)
    else
      match _find_mini_manifest comp_config mini_manifests with
      | none =>
        .ok (none, some ("WARNING: component '" ++ comp_config.name ++ "' ("
          ++ comp_config.mime_type.value ++ ") not found in mini-manifests — skipped"), c)
      | some source =>
        if comp_config.mime_type ∈ _HELM_TYPES then
          match _build_helm_component u comp_config source bom_ref bom_refs app_version
              mini_manifests config_index sub_chart_keys c with
          | .error e => .error e
          | .ok (comp, c') => .ok (some comp, none, c')
        else if comp_config.mime_type ∈ _DOCKER_TYPES then
          .ok (some (_build_docker_component source bom_ref), none, c)
        else
          .ok (some (source.withBomRef bom_ref), none, c)

/-- The top-level component loop of `build_manifest` (step 3): skip
sub-chart keys, collect built components and warnings in declaration
order, threading the draw counter. -/
def buildComponents (u : Nat → String)
    (mini_manifests : List ((String × String) × CdxComponent))
    (bom_refs : List (CKey × String)) (app_version : String)
    (config_index : List (CKey × ComponentConfig)) (sub_chart_keys : List CKey) :
    List ComponentConfig → Nat → Except String (List CdxComponent × List String × Nat)
  | [], c => .ok ([], [], c)
  | cfg :: rest, c =>
    if cfg.key ∈ sub_chart_keys then
      buildComponents u mini_manifests bom_refs app_version config_index sub_chart_keys rest c
    else
      match _build_component u cfg mini_manifests bom_refs app_version config_index
          sub_chart_keys c with
      | .error e => .error e
      | .ok (comp?, warn?, c₁) =>
        match buildComponents u mini_manifests bom_refs app_version config_index
            sub_chart_keys rest c₁ with
        | .error e => .error e
        | .ok (comps, warns, c₂) => .ok (comp?.toList ++ comps, warn?.toList ++ warns, c₂)

/-- The `top_level_refs` comprehension of `_build_dependencies`. -/
def topLevelRefs (bom_refs : List (CKey × String)) (sub_chart_keys : List CKey) :
    List ComponentConfig → Except String (List String)
  | [] => .ok []
  | comp :: rest =>
    if comp.key ∈ sub_chart_keys then topLevelRefs bom_refs sub_chart_keys rest
    else
      match dictFind? bom_refs comp.key with
      | none => .error ("KeyError: " ++ comp.name)
      | some r =>
        match topLevelRefs bom_refs sub_chart_keys rest with
        | .error e => .error e
        | .ok rs => .ok (r :: rs)

/-- The `dep_refs` loop of `_build_dependencies`: resolve each dependency
edge's key, silently dropping unknown targets. -/
def depRefsOf (bom_refs : List (CKey × String)) : List DependencyConfig → List String
  | [] => []
  | dep :: rest =>
    match dictFind? bom_refs dep.key with
    | some r => r :: depRefsOf bom_refs rest
    | none => depRefsOf bom_refs rest

/-- The per-component edge loop of `_build_dependencies`: one entry per
non-sub-chart declared component with at least one resolved dependency. -/
def compEdges (bom_refs : List (CKey × String)) (sub_chart_keys : List CKey) :
    List ComponentConfig → Except String (List CdxDependency)
  | [] => .ok []
  | comp :: rest =>
    if comp.key ∈ sub_chart_keys then compEdges bom_refs sub_chart_keys rest
    else
      match dictFind? bom_refs comp.key with
      | none => .error ("KeyError: " ++ comp.name)
      | some comp_ref =>
        let dep_refs := depRefsOf bom_refs comp.depends_on
        match compEdges bom_refs sub_chart_keys rest with
        | .error e => .error e
        | .ok es =>
          .ok (if dep_refs ≠ [] then CdxDependency.mk comp_ref dep_refs :: es else es)

/-- Python `next((c for c in components if c.key == key), None)`: the
*first* declared component with the given key. -/
def firstConfigWithKey : List ComponentConfig → CKey → Option ComponentConfig
  | [], _ => none
  | c :: rest, k => if c.key = k then some c else firstConfigWithKey rest k

/-- The sub-chart edge loop of `_build_dependencies`: one entry per
sub-chart key that is declared and has at least one resolved dependency
(the `comp_config` guard runs before `bom_refs[sub_key]`, so this loop
cannot raise for undeclared keys). -/
def subChartEdges (components : List ComponentConfig) (bom_refs : List (CKey × String)) :
    List CKey → Except String (List CdxDependency)
  | [] => .ok []
  | sub_key :: rest =>
    match firstConfigWithKey components sub_key with
    | none => subChartEdges components bom_refs rest
    | some comp_config =>
      match dictFind? bom_refs sub_key with
      | none => .error ("KeyError: " ++ sub_key.1)
      | some sub_ref =>
        let dep_refs := depRefsOf bom_refs comp_config.depends_on
        match subChartEdges components bom_refs rest with
        | .error e => .error e
        | .ok es =>
          .ok (if dep_refs ≠ [] then CdxDependency.mk sub_ref dep_refs :: es else es)

/-- `_build_dependencies` from `services/manifest_builder.py`. -/
def _build_dependencies (config : BuildConfig) (bom_refs : List (CKey × String))
    (app_bom_ref : String) (sub_chart_keys : List CKey) :
    Except String (List CdxDependency) :=
  match topLevelRefs bom_refs sub_chart_keys config.components with
  | .error e => .error e
  | .ok top_level_refs =>
    match compEdges bom_refs sub_chart_keys config.components with
    | .error e => .error e
    | .ok ces =>
      match subChartEdges config.components bom_refs sub_chart_keys with
      | .error e => .error e
      | .ok ses =>
        .ok (CdxDependency.mk app_bom_ref top_level_refs :: (ces ++ ses))

/-- `build_manifest` from `services/manifest_builder.py`.  `u` is the uuid
supply, `now` the timestamp string; draws happen in source order: one per
declared component (indices `0 … n-1`), the application identifier (index
`n`), nested descriptor components during the top-level loop (from `n+1`),
and finally the BOM serial number. -/
def build_manifest (u : Nat → String) (now : String) (config : BuildConfig)
    (mini_manifests : List ((String × String) × CdxComponent))
    (version_override name_override : Option String) :
    Except String (CycloneDxBom × List String) :=
  let app_name := pyOr name_override config.application_name
  let app_version := pyOr version_override config.application_version
  let sub_chart_keys := _find_sub_charts config
  let bom_refs := bomRefsFrom u config.components 0
  let n := config.components.length
  let app_bom_ref := _make_bom_ref (u n) app_name
  let config_index := configIndexFrom config.components
  match buildComponents u mini_manifests bom_refs app_version config_index sub_chart_keys
      config.components (n + 1) with
  | .error e => .error e
  | .ok (components, warnings, c') =>
    match _build_dependencies config bom_refs app_bom_ref sub_chart_keys with
    | .error e => .error e
    | .ok dependencies =>
      let meta := CdxMetadata.mk now
        (CdxMetadataComponent.mk app_bom_ref "application" "application/vnd.nc.application"
          app_name app_version)
        (CdxToolsWrapper.mk [CdxTool.mk "application" "am-build-cli" "0.1.0"])
      let bom := CycloneDxBom.mk ("urn:uuid:" ++ u c')
        "../schemas/application-manifest.schema.json" "CycloneDX" "1.6" 1
        meta components dependencies
      .ok (bom, warnings)

/-! ## Observers on assembly results -/

/-- The top-level component list of a successful assembly (empty on error). -/
def bomComponents (r : Except String (CycloneDxBom × List String)) : List CdxComponent :=
  match r with
  | .ok (b, _) => b.components
  | .error _ => []

/-- The dependency edge list of a successful assembly (empty on error). -/
def bomDeps (r : Except String (CycloneDxBom × List String)) : List CdxDependency :=
  match r with
  | .ok (b, _) => b.dependencies
  | .error _ => []

/-- The warning list of a successful assembly (empty on error). -/
def bomWarnings (r : Except String (CycloneDxBom × List String)) : List String :=
  match r with
  | .ok (_, w) => w
  | .error _ => []

/-! ## Concrete scenarios

Scenario A (spec §8): a build configuration with one standalone-runnable
depending on one declared Helm chart, which depends on two declared
container images, each dependency edge carrying a `values_path_prefix`. -/

/-- Scenario A/B: the standalone-runnable declared component. -/
def cfgStandalone : ComponentConfig :=
  .mk "app-runner" .STANDALONE_RUNNABLE none [.mk "the-chart" .HELM_CHART none]

/-- Scenario A/B: the Helm-chart declared component, depending on the two
images with values-path prefixes set. -/
def cfgHelm : ComponentConfig :=
  .mk "the-chart" .HELM_CHART (some "oci://reg.example.com/charts/the-chart:1.0.0")
    [.mk "img-one" .DOCKER_IMAGE (some "images.one"),
     .mk "img-two" .DOCKER_IMAGE (some "images.two")]

/-- Scenario A/B: the first declared container image. -/
def cfgImgOne : ComponentConfig :=
  .mk "img-one" .DOCKER_IMAGE (some "reg.example.com/core/img-one:2.0.0") []

/-- Scenario A/B: the second declared container image. -/
def cfgImgTwo : ComponentConfig :=
  .mk "img-two" .DOCKER_IMAGE (some "reg.example.com/core/img-two:2.1.0") []

/-- The scenario A/B build configuration. -/
def cfgA : BuildConfig :=
  .mk "1.2.3" "my-app" [cfgStandalone, cfgHelm, cfgImgOne, cfgImgTwo]

/-- Scenario A: the Helm chart's descriptor (mini-manifest component). -/
def helmSrc : CdxComponent :=
  .mk "the-chart:oldref" "application" "application/vnd.nc.helm.chart" "the-chart"
    (some "1.0.0") none (some "pkg:helm/charts/the-chart@1.0.0?registry_name=reg.example.com")
    none (some [CdxHash.mk "SHA-256" "abc123"]) none none

/-- Scenario A: the first image's descriptor. -/
def imgOneSrc : CdxComponent :=
  .mk "img-one:oldref" "container" "application/vnd.docker.image" "img-one"
    (some "2.0.0") (some "core")
    (some "pkg:docker/core/img-one@2.0.0?registry_name=reg.example.com")
    none none none none

/-- Scenario A: the second image's descriptor. -/
def imgTwoSrc : CdxComponent :=
  .mk "img-two:oldref" "container" "application/vnd.docker.image" "img-two"
    (some "2.1.0") (some "core")
    (some "pkg:docker/core/img-two@2.1.0?registry_name=reg.example.com")
    none none none none

/-- Scenario A's descriptor lookup table: all three descriptors present. -/
def tblA : List ((String × String) × CdxComponent) :=
  [(("the-chart", "application/vnd.nc.helm.chart"), helmSrc),
   (("img-one", "application/vnd.docker.image"), imgOneSrc),
   (("img-two", "application/vnd.docker.image"), imgTwoSrc)]

/-- Scenario B's descriptor lookup table: the Helm descriptor is absent,
the two image descriptors are present. -/
def tblB : List ((String × String) × CdxComponent) :=
  [(("img-one", "application/vnd.docker.image"), imgOneSrc),
   (("img-two", "application/vnd.docker.image"), imgTwoSrc)]

/-- Scenario A assembly, parameterized by the uuid supply. -/
def scenarioA (u : Nat → String) : Except String (CycloneDxBom × List String) :=
  build_manifest u "2026-01-01T00:00:00Z" cfgA tblA none none

/-- Scenario B assembly, parameterized by the uuid supply. -/
def scenarioB (u : Nat → String) : Except String (CycloneDxBom × List String) :=
  build_manifest u "2026-01-01T00:00:00Z" cfgA tblB none none

/-! ## Further concrete inputs used by individual claims -/

/-- A deterministic demonstration token supply for closed (counter)examples. -/
def uDemo : Nat → String := fun n => "tok" ++ toString n

/-- C2's failing input: a Helm chart whose dependency edge names an
*undeclared* Helm chart (`ghost-chart` is not in `components`). -/
def cfgBug : BuildConfig :=
  .mk "1.0.0" "bug-app"
    [.mk "parent-chart" .HELM_CHART none [.mk "ghost-chart" .HELM_CHART none]]

/-- The descriptor of `parent-chart`, present in C2's failing table. -/
def parentSrc : CdxComponent :=
  .mk "parent-chart:oldref" "application" "application/vnd.nc.helm.chart" "parent-chart"
    (some "1.0.0") none none none none none none

/-- C2's failing descriptor table. -/
def tblBug : List ((String × String) × CdxComponent) :=
  [(("parent-chart", "application/vnd.nc.helm.chart"), parentSrc)]

/-- A Helm-chart declared component with the given dependency edges. -/
def mkHelmCfg (n : String) (deps : List DependencyConfig) : ComponentConfig :=
  .mk n .HELM_CHART none deps

/-- A minimal Helm descriptor named `n`. -/
def mkHelmSrc (n : String) : CdxComponent :=
  .mk (n ++ ":oldref") "application" "application/vnd.nc.helm.chart" n
    (some "1.0.0") none none none none none none

/-- C1's counterexample input: a three-level umbrella chain of declared
Helm charts, `top-chart → mid-chart → leaf-chart`. -/
def cfgChain : BuildConfig :=
  .mk "1.0.0" "chain-app"
    [mkHelmCfg "top-chart" [.mk "mid-chart" .HELM_CHART none],
     mkHelmCfg "mid-chart" [.mk "leaf-chart" .HELM_CHART none],
     mkHelmCfg "leaf-chart" []]

/-- C1's counterexample table: descriptors for all three charts. -/
def tblChain : List ((String × String) × CdxComponent) :=
  [(("top-chart", "application/vnd.nc.helm.chart"), mkHelmSrc "top-chart"),
   (("mid-chart", "application/vnd.nc.helm.chart"), mkHelmSrc "mid-chart"),
   (("leaf-chart", "application/vnd.nc.helm.chart"), mkHelmSrc "leaf-chart")]

/-- C5's counterexample input: `chart-a` (Helm) depends on the declared
Helm chart `chart-b`. -/
def cfgAB : BuildConfig :=
  .mk "1.0.0" "ab-app"
    [mkHelmCfg "chart-a" [.mk "chart-b" .HELM_CHART none],
     mkHelmCfg "chart-b" []]

/-- C10's counterexample input: two declared components with the identical
`(name, mime_type)` pair. -/
def cfgDup : BuildConfig :=
  .mk "1.0.0" "dup-app"
    [.mk "img" .DOCKER_IMAGE none [], .mk "img" .DOCKER_IMAGE none []]

/-! ## String lemmas -/

theorem strData_append (a b : String) : (a ++ b).data = a.data ++ b.data := by
  cases a; cases b; rfl

theorem strLength_data (s : String) : s.data.length = s.length := by
  cases s; rfl

/-- Two equal concatenations with equal-length right parts have equal
parts. -/
theorem strAppend_inj {a b s t : String} (h : a ++ s = b ++ t)
    (hl : s.length = t.length) : a = b ∧ s = t := by
  cases a; cases b; cases s; cases t
  have hd := congrArg String.data h
  simp only [strData_append] at hd
  have := List.append_inj' hd (by simpa [strLength_data] using hl)
  exact ⟨congrArg String.mk this.1, congrArg String.mk this.2⟩

/-- Injectivity of the generated-identifier format: two identifiers built
from 36-character tokens agree only if names and tokens agree. -/
theorem make_bom_ref_inj {n1 n2 t1 t2 : String} (h1 : t1.length = 36)
    (h2 : t2.length = 36) (h : _make_bom_ref t1 n1 = _make_bom_ref t2 n2) :
    n1 = n2 ∧ t1 = t2 := by
  unfold _make_bom_ref at h
  obtain ⟨h3, h4⟩ := strAppend_inj h (h1.trans h2.symm)
  exact ⟨(strAppend_inj h3 rfl).1, h4⟩

/-! ## Claims C7, C8: reference parsing and namespace matching -/

/-- C7: parsing the single-segment container reference `"nginx:1.27.0"`
yields registry host `docker.io`, namespace `library`, name `nginx`, and
version `1.27.0`, and `make_docker_purl` on it with no registry definition
returns exactly `pkg:docker/library/nginx@1.27.0?registry_name=docker.io`. -/
theorem C7_nginx_reference :
    _parse_docker_ref_parts "nginx:1.27.0" = ("docker.io", "library", "nginx", "1.27.0") ∧
    parse_docker_reference "nginx:1.27.0" = ("nginx", "1.27.0", "library") ∧
    make_docker_purl "nginx:1.27.0" none =
      .ok "pkg:docker/library/nginx@1.27.0?registry_name=docker.io" :=
  ⟨by decide, by decide, rfl⟩

/-- C8: `_namespace_matches ns g` holds exactly when `ns = g` or `ns`
begins with `g ++ "/"`; in particular it accepts `netcracker`/`netcracker`
and `netcracker/team`/`netcracker` but rejects the plain prefix
`netcracker-fork`/`netcracker`. -/
theorem C8_namespace_matches :
    (∀ ns g : String,
      _namespace_matches ns g = true ↔ (ns = g ∨ ∃ rest, ns = g ++ "/" ++ rest)) ∧
    _namespace_matches "netcracker" "netcracker" = true ∧
    _namespace_matches "netcracker/team" "netcracker" = true ∧
    _namespace_matches "netcracker-fork" "netcracker" = false := by
  refine ⟨fun ns g => ?_, by decide, by decide, by decide⟩
  unfold _namespace_matches pyStartsWith
  rw [Bool.or_eq_true, decide_eq_true_eq, List.isPrefixOf_iff_prefix]
  constructor
  · rintro (h | ⟨t, ht⟩)
    · exact Or.inl h
    · refine Or.inr ⟨String.mk t, ?_⟩
      apply String.ext
      rw [← ht]
      simp [strData_append, List.append_assoc]
  · rintro (h | ⟨rest, hrest⟩)
    · exact Or.inl h
    · refine Or.inr ⟨rest.data, ?_⟩
      rw [hrest]
      simp [strData_append, List.append_assoc]

/-! ## Claim C2: assembly failure semantics -/

/-- C2: contrary to the claim that `build_manifest` never raises,
assembling `cfgBug` — a Helm chart (with its descriptor present) whose
dependency edge names an undeclared Helm chart — raises `KeyError`:
`_build_sub_chart` indexes `bom_refs[key]` before its `config_index.get`
guard can return `None`.  The code's own guard (and the correctly ordered
guard in `_build_dependencies`) shows the intent was to tolerate the
undeclared key. -/
theorem C2_keyerror_on_undeclared_subchart :
    build_manifest uDemo "2026-01-01T00:00:00Z" cfgBug tblBug none none =
      .error "KeyError: ghost-chart" := rfl

/-! ## Claims C3, C4: the end-to-end scenarios -/

/-- C3: scenario A (standalone → Helm chart → two images with
values-path prefixes, all descriptors present) assembles, for every token
supply `u`, into exactly 4 top-level components (the synthesized
standalone, the Helm chart, the two images), the synthetic application
edge to all 4 identifiers, the standalone→chart edge and the chart→images
edge, with the Helm component carrying `isLibrary=false` and an
`artifactMappings` property with exactly the two images' freshly generated
identifiers as keys, and no warnings. -/
theorem C3_scenarioA (u : Nat → String) :
    scenarioA u = .ok
      (⟨"urn:uuid:" ++ u 5, "../schemas/application-manifest.schema.json", "CycloneDX",
        "1.6", 1,
        ⟨"2026-01-01T00:00:00Z",
         ⟨"my-app:" ++ u 4, "application", "application/vnd.nc.application", "my-app", "1.2.3"⟩,
         ⟨[⟨"application", "am-build-cli", "0.1.0"⟩]⟩⟩,
        [CdxComponent.mk ("app-runner:" ++ u 0) "application"
           "application/vnd.nc.standalone-runnable" "app-runner" (some "1.2.3")
           none none (some []) none (some []) none,
         CdxComponent.mk ("the-chart:" ++ u 1) "application"
           "application/vnd.nc.helm.chart" "the-chart" (some "1.0.0") none
           (some "pkg:helm/charts/the-chart@1.0.0?registry_name=reg.example.com")
           (some [⟨"isLibrary", .b false⟩,
                  ⟨"qubership:helm.values.artifactMappings",
                   .mapping [("img-one:" ++ u 2, [("valuesPathPrefix", "images.one")]),
                             ("img-two:" ++ u 3, [("valuesPathPrefix", "images.two")])]⟩])
           (some [⟨"SHA-256", "abc123"⟩]) (some []) none,
         CdxComponent.mk ("img-one:" ++ u 2) "container" "application/vnd.docker.image"
           "img-one" (some "2.0.0") (some "core")
           (some "pkg:docker/core/img-one@2.0.0?registry_name=reg.example.com")
           none none none none,
         CdxComponent.mk ("img-two:" ++ u 3) "container" "application/vnd.docker.image"
           "img-two" (some "2.1.0") (some "core")
           (some "pkg:docker/core/img-two@2.1.0?registry_name=reg.example.com")
           none none none none],
        [⟨"my-app:" ++ u 4,
          ["app-runner:" ++ u 0, "the-chart:" ++ u 1, "img-one:" ++ u 2, "img-two:" ++ u 3]⟩,
         ⟨"app-runner:" ++ u 0, ["the-chart:" ++ u 1]⟩,
         ⟨"the-chart:" ++ u 1, ["img-one:" ++ u 2, "img-two:" ++ u 3]⟩]⟩,
       []) := rfl

/-- C4 counterexample: in scenario B (the Helm descriptor absent, both
image descriptors present) the assembly yields 3 top-level components —
not 1 as claimed — because the two declared images are still built from
their descriptors; and the dependency edges do mention the Helm chart's
generated identifier `"the-chart:tok1"` (the synthetic application edge,
the standalone's edge, and the chart's own edge are all built from the
config and identifier table alone). -/
theorem C4_counterexample :
    (bomComponents (scenarioB uDemo)).length = 3 ∧
    bomDeps (scenarioB uDemo) =
      [⟨"my-app:tok4", ["app-runner:tok0", "the-chart:tok1", "img-one:tok2", "img-two:tok3"]⟩,
       ⟨"app-runner:tok0", ["the-chart:tok1"]⟩,
       ⟨"the-chart:tok1", ["img-one:tok2", "img-two:tok3"]⟩] ∧
    bomWarnings (scenarioB uDemo) =
      ["WARNING: component 'the-chart' (application/vnd.nc.helm.chart) not found in mini-manifests — skipped"] :=
  ⟨rfl, rfl, rfl⟩

/-- C4 (amended): scenario B assembles, for every token supply, into
exactly 3 top-level components (the synthesized standalone and the two
images; the Helm chart is omitted), exactly one warning naming the Helm
component and containing "not found in mini-manifests", and a dependency
edge list that still references the Helm chart's generated identifier:
the synthetic application edge lists all four declared identifiers
including the chart's, the standalone's edge targets the chart, and the
chart's own edge to the two images is still emitted. -/
theorem C4_scenarioB (u : Nat → String) :
    scenarioB u = .ok
      (⟨"urn:uuid:" ++ u 5, "../schemas/application-manifest.schema.json", "CycloneDX",
        "1.6", 1,
        ⟨"2026-01-01T00:00:00Z",
         ⟨"my-app:" ++ u 4, "application", "application/vnd.nc.application", "my-app", "1.2.3"⟩,
         ⟨[⟨"application", "am-build-cli", "0.1.0"⟩]⟩⟩,
        [CdxComponent.mk ("app-runner:" ++ u 0) "application"
           "application/vnd.nc.standalone-runnable" "app-runner" (some "1.2.3")
           none none (some []) none (some []) none,
         CdxComponent.mk ("img-one:" ++ u 2) "container" "application/vnd.docker.image"
           "img-one" (some "2.0.0") (some "core")
           (some "pkg:docker/core/img-one@2.0.0?registry_name=reg.example.com")
           none none none none,
         CdxComponent.mk ("img-two:" ++ u 3) "container" "application/vnd.docker.image"
           "img-two" (some "2.1.0") (some "core")
           (some "pkg:docker/core/img-two@2.1.0?registry_name=reg.example.com")
           none none none none],
        [⟨"my-app:" ++ u 4,
          ["app-runner:" ++ u 0, "the-chart:" ++ u 1, "img-one:" ++ u 2, "img-two:" ++ u 3]⟩,
         ⟨"app-runner:" ++ u 0, ["the-chart:" ++ u 1]⟩,
         ⟨"the-chart:" ++ u 1, ["img-one:" ++ u 2, "img-two:" ++ u 3]⟩]⟩,
       ["WARNING: component 'the-chart' (application/vnd.nc.helm.chart) not found in mini-manifests — skipped"]) := rfl

/-! ## Claim C9: purl error conditions -/

/-- String append is associative (data-level). -/
theorem strAppend_assoc (a b c : String) : (a ++ b) ++ c = a ++ (b ++ c) := by
  apply String.ext
  simp [strData_append, List.append_assoc]

/-- Right cancellation for string append. -/
theorem strAppend_right_cancel {p1 p2 x : String} (h : p1 ++ x = p2 ++ x) : p1 = p2 :=
  (strAppend_inj h rfl).1

/-- Whether an `Except`-valued purl derivation succeeded. -/
def exceptIsOk : Except String String → Bool
  | .ok _ => true
  | .error _ => false

/-- C9: `make_helm_purl` fails exactly when the parsed reference is
missing the chart name, the version, or the registry host, each failure
carrying its own distinct message; `make_docker_purl` succeeds whenever
name and registry parse (a missing version never fails — it was defaulted
to `latest` during parsing), with distinct messages for missing name and
missing registry. -/
theorem C9_purl_errors :
    (∀ reference : String, ∀ rd : Option RegistryDefinition,
      exceptIsOk (make_helm_purl reference rd) = true ↔
        ((helmRefParts reference).2.2.1 ≠ "" ∧ (helmRefParts reference).2.2.2 ≠ "" ∧
         (helmRefParts reference).1 ≠ "")) ∧
    (∀ reference : String, ∀ rd : Option RegistryDefinition,
      (helmRefParts reference).2.2.1 = "" →
        make_helm_purl reference rd =
          .error ("Invalid Helm reference: cannot parse chart name from '" ++ reference ++ "'")) ∧
    (∀ reference : String, ∀ rd : Option RegistryDefinition,
      (helmRefParts reference).2.2.1 ≠ "" → (helmRefParts reference).2.2.2 = "" →
        make_helm_purl reference rd =
          .error ("Invalid Helm reference: version is required in '" ++ reference ++ "'")) ∧
    (∀ reference : String, ∀ rd : Option RegistryDefinition,
      (helmRefParts reference).2.2.1 ≠ "" → (helmRefParts reference).2.2.2 ≠ "" →
      (helmRefParts reference).1 = "" →
        make_helm_purl reference rd =
          .error ("Invalid Helm reference: cannot determine registry from '" ++ reference ++ "'")) ∧
    (∀ reference : String,
      ("Invalid Helm reference: cannot parse chart name from '" ++ reference ++ "'") ≠
        ("Invalid Helm reference: version is required in '" ++ reference ++ "'") ∧
      ("Invalid Helm reference: cannot parse chart name from '" ++ reference ++ "'") ≠
        ("Invalid Helm reference: cannot determine registry from '" ++ reference ++ "'") ∧
      ("Invalid Helm reference: version is required in '" ++ reference ++ "'") ≠
        ("Invalid Helm reference: cannot determine registry from '" ++ reference ++ "'") ∧
      ("Invalid Docker reference: cannot parse image name from '" ++ reference ++ "'") ≠
        ("Invalid Docker reference: cannot determine registry from '" ++ reference ++ "'")) ∧
    (∀ reference : String, ∀ rd : Option RegistryDefinition,
      exceptIsOk (make_docker_purl reference rd) = true ↔
        ((_parse_docker_ref_parts reference).2.2.1 ≠ "" ∧
         (_parse_docker_ref_parts reference).1 ≠ "")) ∧
    (∀ reference : String, ∀ rd : Option RegistryDefinition,
      (_parse_docker_ref_parts reference).2.2.1 = "" →
        make_docker_purl reference rd =
          .error ("Invalid Docker reference: cannot parse image name from '" ++ reference ++ "'")) ∧
    (∀ reference : String, ∀ rd : Option RegistryDefinition,
      (_parse_docker_ref_parts reference).2.2.1 ≠ "" →
      (_parse_docker_ref_parts reference).1 = "" →
        make_docker_purl reference rd =
          .error ("Invalid Docker reference: cannot determine registry from '" ++ reference ++ "'")) := by
  refine ⟨?_, ?_, ?_, ?_, ?_, ?_, ?_, ?_⟩
  · intro reference rd
    unfold make_helm_purl
    by_cases hn : (helmRefParts reference).2.2.1 = "" <;>
      by_cases hv : (helmRefParts reference).2.2.2 = "" <;>
        by_cases hr : (helmRefParts reference).1 = "" <;>
          by_cases hns : (helmRefParts reference).2.1 = "" <;>
            simp [hn, hv, hr, hns, exceptIsOk]
  · intro reference rd hn
    unfold make_helm_purl
    simp [hn]
  · intro reference rd hn hv
    unfold make_helm_purl
    simp [hn, hv]
  · intro reference rd hn hv hr
    unfold make_helm_purl
    simp [hn, hv, hr]
  · intro reference
    refine ⟨?_, ?_, ?_, ?_⟩ <;>
      · intro h
        rw [strAppend_assoc, strAppend_assoc] at h
        exact absurd (strAppend_right_cancel h) (by decide)
  · intro reference rd
    unfold make_docker_purl
    by_cases hn : (_parse_docker_ref_parts reference).2.2.1 = "" <;>
      by_cases hr : (_parse_docker_ref_parts reference).1 = "" <;>
        by_cases hns : (_parse_docker_ref_parts reference).2.1 = "" <;>
          simp [hn, hr, hns, exceptIsOk]
  · intro reference rd hn
    unfold make_docker_purl
    simp [hn]
  · intro reference rd hn hr
    unfold make_docker_purl
    simp [hn, hr]

/-- C9 witness: the three Helm failure modes and a Docker success at
concrete references. -/
theorem C9_witness :
    make_helm_purl "reg.example.com/charts/mychart" none =
      .error "Invalid Helm reference: version is required in 'reg.example.com/charts/mychart'" ∧
    make_helm_purl "reg.example.com/charts/:1.0" none =
      .error "Invalid Helm reference: cannot parse chart name from 'reg.example.com/charts/:1.0'" ∧
    make_helm_purl "mychart:1.0" none =
      .error "Invalid Helm reference: cannot determine registry from 'mychart:1.0'" ∧
    exceptIsOk (make_docker_purl "mychart" none) = true :=
  ⟨C9_purl_errors.2.2.1 "reg.example.com/charts/mychart" none (by decide) (by decide),
   C9_purl_errors.2.1 "reg.example.com/charts/:1.0" none (by decide),
   C9_purl_errors.2.2.2.1 "mychart:1.0" none (by decide) (by decide) (by decide),
   (C9_purl_errors.2.2.2.2.2.1 "mychart" none).mpr ⟨by decide, by decide⟩⟩

/-! ## Identifier-table lemmas -/

/-- Left cancellation for string append. -/
theorem strAppend_left_cancel {a x y : String} (h : a ++ x = a ++ y) : x = y := by
  cases a; cases x; cases y
  have hd := congrArg String.data h
  simp only [strData_append] at hd
  exact congrArg String.mk (List.append_cancel_left hd)

/-- The contract of the uuid supply on the first `n` draws: every token is
36 characters long (`uuid4` renders as 36 characters) and no two draws
collide. -/
def GoodTokens (u : Nat → String) (n : Nat) : Prop :=
  (∀ i, i < n → (u i).length = 36) ∧
  (∀ i, i < n → ∀ j, j < n → u i = u j → i = j)

/-- Soundness of lookup in the generated-identifier table: a hit is the
identifier drawn at some declaration position whose key matches. -/
theorem bomRefsFrom_sound {u : Nat → String} {L : List ComponentConfig} {c0 : Nat}
    {k : CKey} {r : String}
    (h : dictFind? (bomRefsFrom u L c0) k = some r) :
    ∃ i, ∃ hi : i < L.length,
      (L.get ⟨i, hi⟩).key = k ∧ r = _make_bom_ref (u (c0 + i)) k.1 := by
  induction L generalizing c0 with
  | nil => simp [bomRefsFrom, dictFind?] at h
  | cons comp rest ih =>
    rw [bomRefsFrom, dictFind?] at h
    cases hrest : dictFind? (bomRefsFrom u rest (c0 + 1)) k with
    | some r' =>
      rw [hrest] at h
      obtain ⟨i, hi, hk, hr⟩ := ih (hrest.trans (congrArg some (Option.some.inj h)))
      refine ⟨i + 1, by simpa using Nat.succ_lt_succ hi, by simpa using hk, ?_⟩
      rw [hr]; ring_nf
    | none =>
      rw [hrest] at h
      by_cases hk : k = comp.key
      · rw [if_pos hk] at h
        refine ⟨0, Nat.succ_pos _, hk.symm, ?_⟩
        have hn : comp.name = k.1 := by rw [hk]; rfl
        rw [← Option.some.inj h, hn]
        rfl
      · rw [if_neg hk] at h
        exact absurd h (by simp)

/-- Completeness of lookup in the generated-identifier table: every
declared key has an identifier. -/
theorem bomRefsFrom_complete {u : Nat → String} {L : List ComponentConfig} {c0 : Nat}
    {k : CKey} (h : ∃ comp ∈ L, comp.key = k) :
    (dictFind? (bomRefsFrom u L c0) k).isSome := by
  induction L generalizing c0 with
  | nil => simp at h
  | cons comp rest ih =>
    rw [bomRefsFrom, dictFind?]
    cases hrest : dictFind? (bomRefsFrom u rest (c0 + 1)) k with
    | some r' => simp
    | none =>
      rcases h with ⟨c, hc, hk⟩
      rcases List.mem_cons.mp hc with hhead | htail
      · subst hhead
        rw [if_pos hk.symm]; simp
      · have hsome : (dictFind? (bomRefsFrom u rest (c0 + 1)) k).isSome :=
          ih ⟨c, htail, hk⟩
        rw [hrest] at hsome
        simp at hsome

/-- Injectivity of the generated-identifier table under the token
contract: two keys sharing an identifier are the same key. -/
theorem bomRefsFrom_inj {u : Nat → String} {L : List ComponentConfig}
    (hg : GoodTokens u L.length) {k1 k2 : CKey} {r : String}
    (h1 : dictFind? (bomRefsFrom u L 0) k1 = some r)
    (h2 : dictFind? (bomRefsFrom u L 0) k2 = some r) : k1 = k2 := by
  obtain ⟨i1, hi1, hk1, hr1⟩ := bomRefsFrom_sound h1
  obtain ⟨i2, hi2, hk2, hr2⟩ := bomRefsFrom_sound h2
  rw [Nat.zero_add] at hr1 hr2
  obtain ⟨hn, ht⟩ := make_bom_ref_inj (hg.1 i1 hi1) (hg.1 i2 hi2) (hr1.symm.trans hr2)
  have hij := hg.2 i1 hi1 i2 hi2 ht
  subst hij
  rw [← hk1, ← hk2]

/-! ## Claim C6: generated identifiers -/

/-- C6: under the uuid contract (36-character tokens, no collision among
the draws of one pass), every identifier in the table built by
`build_manifest` has the form `name ++ ":" ++ token` with a 36-character
token; identifiers of distinct keys are pairwise distinct — including keys
sharing a name but differing in `mime_type` — and all differ from the
application identifier drawn afterwards; and two generations for the same
name always yield different identifiers (never deterministic). -/
theorem C6_identifiers (u : Nat → String) (config : BuildConfig)
    (hg : GoodTokens u (config.components.length + 1)) :
    (∀ k : CKey, ∀ r : String, dictFind? (bomRefsFrom u config.components 0) k = some r →
      ∃ i, i < config.components.length ∧ r = _make_bom_ref (u i) k.1 ∧ (u i).length = 36) ∧
    (∀ k1 k2 : CKey, ∀ r1 r2 : String,
      dictFind? (bomRefsFrom u config.components 0) k1 = some r1 →
      dictFind? (bomRefsFrom u config.components 0) k2 = some r2 →
      k1 ≠ k2 → r1 ≠ r2) ∧
    (∀ app_name : String, ∀ k : CKey, ∀ r : String,
      dictFind? (bomRefsFrom u config.components 0) k = some r →
      r ≠ _make_bom_ref (u config.components.length) app_name) ∧
    (∀ name : String, ∀ i j : Nat, i < config.components.length + 1 →
      j < config.components.length + 1 → i ≠ j →
      _make_bom_ref (u i) name ≠ _make_bom_ref (u j) name) := by
  have hgn : GoodTokens u config.components.length :=
    ⟨fun i hi => hg.1 i (Nat.lt_succ_of_lt hi),
     fun i hi j hj => hg.2 i (Nat.lt_succ_of_lt hi) j (Nat.lt_succ_of_lt hj)⟩
  refine ⟨?_, ?_, ?_, ?_⟩
  · intro k r h
    obtain ⟨i, hi, _, hr⟩ := bomRefsFrom_sound h
    rw [Nat.zero_add] at hr
    exact ⟨i, hi, hr, hgn.1 i hi⟩
  · intro k1 k2 r1 r2 h1 h2 hne heq
    subst heq
    exact hne (bomRefsFrom_inj hgn h1 h2)
  · intro app_name k r h heq
    obtain ⟨i, hi, _, hr⟩ := bomRefsFrom_sound h
    rw [Nat.zero_add] at hr
    rw [hr] at heq
    obtain ⟨_, ht⟩ := make_bom_ref_inj (hgn.1 i hi)
      (hg.1 config.components.length (Nat.lt_succ_self _)) heq
    have := hg.2 i (Nat.lt_succ_of_lt hi) config.components.length (Nat.lt_succ_self _) ht
    exact absurd this (Nat.ne_of_lt hi)
  · intro name i j hi hj hne heq
    exact hne (hg.2 i hi j hj (strAppend_left_cancel heq))

/-- A concrete collision-free 36-character token supply for the C6
witness. -/
def uW : Nat → String := fun n =>
  ["aaaaaaaaaaaaaaaaaaaaaaaaaaaaaaaaaaaa",
   "bbbbbbbbbbbbbbbbbbbbbbbbbbbbbbbbbbbb",
   "cccccccccccccccccccccccccccccccccccc"].getD n
    "dddddddddddddddddddddddddddddddddddd"

/-- A two-component configuration sharing a name across mime types, for
the C6 witness. -/
def cfgW : BuildConfig :=
  .mk "1.0.0" "w-app" [.mk "x" .HELM_CHART none [], .mk "x" .DOCKER_IMAGE none []]

/-- C6 witness: at a concrete supply and configuration, the identifiers of
the Helm-typed and Docker-typed components named `x` differ, and two
successive generations for the same name differ. -/
theorem C6_identifiers_witness :
    "x:aaaaaaaaaaaaaaaaaaaaaaaaaaaaaaaaaaaa" ≠ "x:bbbbbbbbbbbbbbbbbbbbbbbbbbbbbbbbbbbb" ∧
    _make_bom_ref (uW 0) "x" ≠ _make_bom_ref (uW 1) "x" :=
  ⟨(C6_identifiers uW cfgW ⟨by decide, by decide⟩).2.1 ("x", .HELM_CHART) ("x", .DOCKER_IMAGE)
      "x:aaaaaaaaaaaaaaaaaaaaaaaaaaaaaaaaaaaa" "x:bbbbbbbbbbbbbbbbbbbbbbbbbbbbbbbbbbbb"
      rfl rfl (by decide),
   (C6_identifiers uW cfgW ⟨by decide, by decide⟩).2.2.2 "x" 0 1 (by decide) (by decide) (by decide)⟩

/-! ## Structural lemmas about the assembler -/

@[simp] theorem withBomRef_bom_ref (s : CdxComponent) (r : String) :
    (s.withBomRef r).bom_ref = r := by cases s; rfl

@[simp] theorem withHelmUpdate_bom_ref (s : CdxComponent) (r v : String)
    (ps : List CdxProperty) (cs : List CdxComponent) :
    (s.withHelmUpdate r v ps cs).bom_ref = r := by cases s; rfl

@[simp] theorem withHelmUpdate_components (s : CdxComponent) (r v : String)
    (ps : List CdxProperty) (cs : List CdxComponent) :
    (s.withHelmUpdate r v ps cs).components = some cs := by cases s; rfl

/-- Helm mime types are not standalone mime types. -/
theorem helm_not_standalone {m : MimeType} (h : m ∈ _HELM_TYPES) :
    m ∉ _STANDALONE_TYPES := by
  simp only [_HELM_TYPES, List.mem_cons, List.mem_singleton, List.not_mem_nil] at h
  rcases h with h | h | h <;> first | (subst h; decide) | exact absurd h (by simp)

/-- Standalone mime types are not Helm mime types. -/
theorem standalone_not_helm {m : MimeType} (h : m ∈ _STANDALONE_TYPES) :
    m ∉ _HELM_TYPES := by
  simp only [_STANDALONE_TYPES, List.mem_cons, List.mem_singleton, List.not_mem_nil] at h
  rcases h with h | h | h <;> first | (subst h; decide) | exact absurd h (by simp)

theorem addSubChartDeps_mem {acc : List CKey} {deps : List DependencyConfig} {k : CKey}
    (h : k ∈ addSubChartDeps acc deps) : k ∈ acc ∨ k.2 ∈ _HELM_TYPES := by
  induction deps generalizing acc with
  | nil => exact Or.inl h
  | cons dep rest ih =>
    rw [addSubChartDeps] at h
    rcases ih h with hacc | hh
    · by_cases hm : dep.mime_type ∈ _HELM_TYPES
      · rw [if_pos hm] at hacc
        by_cases hin : dep.key ∈ acc
        · rw [if_pos hin] at hacc; exact Or.inl hacc
        · rw [if_neg hin] at hacc
          rcases List.mem_append.mp hacc with h1 | h2
          · exact Or.inl h1
          · rw [List.mem_singleton] at h2
            subst h2
            exact Or.inr hm
      · rw [if_neg hm] at hacc; exact Or.inl hacc
    · exact Or.inr hh

theorem findSubChartsAux_mem {acc : List CKey} {L : List ComponentConfig} {k : CKey}
    (h : k ∈ findSubChartsAux acc L) : k ∈ acc ∨ k.2 ∈ _HELM_TYPES := by
  induction L generalizing acc with
  | nil => exact Or.inl h
  | cons comp rest ih =>
    rw [findSubChartsAux] at h
    rcases ih h with hacc | hh
    · by_cases hm : comp.mime_type ∈ _HELM_TYPES
      · rw [if_pos hm] at hacc
        exact addSubChartDeps_mem hacc
      · rw [if_neg hm] at hacc; exact Or.inl hacc
    · exact Or.inr hh

/-- Every sub-chart key has a Helm mime type. -/
theorem mem_subCharts_helm {config : BuildConfig} {k : CKey}
    (h : k ∈ _find_sub_charts config) : k.2 ∈ _HELM_TYPES := by
  rcases findSubChartsAux_mem h with hacc | hh
  · exact absurd hacc (List.not_mem_nil k)
  · exact hh

theorem addSubChartDeps_mono {acc : List CKey} {deps : List DependencyConfig} {k : CKey}
    (h : k ∈ acc) : k ∈ addSubChartDeps acc deps := by
  induction deps generalizing acc with
  | nil => exact h
  | cons dep rest ih =>
    rw [addSubChartDeps]
    apply ih
    by_cases hm : dep.mime_type ∈ _HELM_TYPES
    · rw [if_pos hm]
      by_cases hin : dep.key ∈ acc
      · rw [if_pos hin]; exact h
      · rw [if_neg hin]; exact List.mem_append_left _ h
    · rw [if_neg hm]; exact h

theorem addSubChartDeps_adds {acc : List CKey} {deps : List DependencyConfig}
    {dep : DependencyConfig} (hd : dep ∈ deps) (hm : dep.mime_type ∈ _HELM_TYPES) :
    dep.key ∈ addSubChartDeps acc deps := by
  induction deps generalizing acc with
  | nil => exact absurd hd (List.not_mem_nil dep)
  | cons d rest ih =>
    rw [addSubChartDeps]
    rcases List.mem_cons.mp hd with hhead | htail
    · subst hhead
      apply addSubChartDeps_mono
      rw [if_pos hm]
      by_cases hin : dep.key ∈ acc
      · rw [if_pos hin]; exact hin
      · rw [if_neg hin]; exact List.mem_append_right _ (List.mem_singleton_self _)
    · exact ih htail

theorem findSubChartsAux_mono {acc : List CKey} {L : List ComponentConfig} {k : CKey}
    (h : k ∈ acc) : k ∈ findSubChartsAux acc L := by
  induction L generalizing acc with
  | nil => exact h
  | cons comp rest ih =>
    rw [findSubChartsAux]
    apply ih
    by_cases hm : comp.mime_type ∈ _HELM_TYPES
    · rw [if_pos hm]; exact addSubChartDeps_mono h
    · rw [if_neg hm]; exact h

/-- A Helm-typed dependency edge of a declared Helm-typed component is a
sub-chart key. -/
theorem subcharts_memAux {L : List ComponentConfig} {parent : ComponentConfig}
    {dep : DependencyConfig} (hp : parent ∈ L)
    (hpm : parent.mime_type ∈ _HELM_TYPES) (hd : dep ∈ parent.depends_on)
    (hdm : dep.mime_type ∈ _HELM_TYPES) (acc : List CKey) :
    dep.key ∈ findSubChartsAux acc L := by
  induction L generalizing acc with
  | nil => exact absurd hp (List.not_mem_nil parent)
  | cons comp rest ih =>
    rw [findSubChartsAux]
    rcases List.mem_cons.mp hp with hhead | htail
    · subst hhead
      rw [if_pos hpm]
      exact findSubChartsAux_mono (addSubChartDeps_adds hd hdm)
    · exact ih htail _

theorem subcharts_mem {config : BuildConfig} {parent : ComponentConfig}
    {dep : DependencyConfig} (hp : parent ∈ config.components)
    (hpm : parent.mime_type ∈ _HELM_TYPES) (hd : dep ∈ parent.depends_on)
    (hdm : dep.mime_type ∈ _HELM_TYPES) : dep.key ∈ _find_sub_charts config :=
  subcharts_memAux hp hpm hd hdm []

/-- Completeness of the config index: every declared key resolves. -/
theorem configIndexFrom_complete {L : List ComponentConfig} {k : CKey}
    (h : ∃ comp ∈ L, comp.key = k) :
    (dictFind? (configIndexFrom L) k).isSome := by
  induction L with
  | nil => simp at h
  | cons comp rest ih =>
    rw [configIndexFrom, dictFind?]
    cases hrest : dictFind? (configIndexFrom rest) k with
    | some r' => simp
    | none =>
      rcases h with ⟨c, hc, hk⟩
      rcases List.mem_cons.mp hc with hhead | htail
      · subst hhead
        rw [if_pos hk.symm]; simp
      · have := ih ⟨c, htail, hk⟩
        rw [hrest] at this
        simp at this

/-- Whether `_build_component` produces an output component for `cfg`:
standalone components always do, others exactly when their descriptor is
in the table.  (Assumes the identifier lookup succeeds, which
`build_manifest` guarantees for declared components.) -/
def emitsComp (mini : List ((String × String) × CdxComponent))
    (cfg : ComponentConfig) : Bool :=
  decide (cfg.mime_type ∈ _STANDALONE_TYPES) || (_find_mini_manifest cfg mini).isSome

/-- `_build_helm_component` unfolded to its decision tree. -/
theorem build_helm_eq (u : Nat → String) (cfg : ComponentConfig) (source : CdxComponent)
    (bom_ref : String) (bom_refs : List (CKey × String)) (app_version : String)
    (mini : List ((String × String) × CdxComponent))
    (config_index : List (CKey × ComponentConfig)) (sub_chart_keys : List CKey) (c : Nat) :
    _build_helm_component u cfg source bom_ref bom_refs app_version mini config_index
        sub_chart_keys c =
      match nestSubCharts bom_refs config_index sub_chart_keys cfg.depends_on with
      | .error e => .error e
      | .ok subs =>
        .ok (source.withHelmUpdate bom_ref (pyOr source.version app_version)
              (helmProperties cfg bom_refs)
              ((match source.components with
                | none => ([], c)
                | some scomps => regenNested u scomps c).1 ++ subs),
             (match source.components with
              | none => ([], c)
              | some scomps => regenNested u scomps c).2) := rfl

/-- A successfully built Helm component carries the supplied identifier. -/
theorem build_helm_bom_ref {u : Nat → String} {cfg : ComponentConfig}
    {source : CdxComponent} {bom_ref : String} {bom_refs : List (CKey × String)}
    {app_version : String} {mini : List ((String × String) × CdxComponent)}
    {config_index : List (CKey × ComponentConfig)} {sub_chart_keys : List CKey}
    {c : Nat} {comp : CdxComponent} {c₂ : Nat}
    (h : _build_helm_component u cfg source bom_ref bom_refs app_version mini config_index
        sub_chart_keys c = .ok (comp, c₂)) : comp.bom_ref = bom_ref := by
  rw [build_helm_eq] at h
  cases hn : nestSubCharts bom_refs config_index sub_chart_keys cfg.depends_on with
  | error e => rw [hn] at h; exact absurd h (by simp)
  | ok subs =>
    rw [hn] at h
    have hp := Except.ok.inj h
    have := congrArg Prod.fst hp
    simp only at this
    rw [← this]
    simp

/-- Injectivity of `Except.ok` on triples. -/
theorem ok_triple_inj {ε α β γ : Type} {a a' : α} {b b' : β} {c c' : γ}
    (h : (Except.ok (a, b, c) : Except ε (α × β × γ)) = .ok (a', b', c')) :
    a = a' ∧ b = b' ∧ c = c' := by
  injection h with h1
  injection h1 with h2 h3
  injection h3 with h4 h5
  exact ⟨h2, h4, h5⟩

/-- The output component of `_build_component`, projected to its
identifier: present iff `emitsComp`, and always the table identifier. -/
theorem build_component_refs {u : Nat → String} {cfg : ComponentConfig}
    {mini : List ((String × String) × CdxComponent)} {bom_refs : List (CKey × String)}
    {app_version : String} {config_index : List (CKey × ComponentConfig)}
    {sub_chart_keys : List CKey} {c : Nat} {comp? : Option CdxComponent}
    {warn? : Option String} {c' : Nat}
    (h : _build_component u cfg mini bom_refs app_version config_index sub_chart_keys c =
      .ok (comp?, warn?, c')) :
    comp?.map CdxComponent.bom_ref =
      (if emitsComp mini cfg then some ((dictFind? bom_refs cfg.key).getD "") else none) := by
  unfold _build_component at h
  cases hl : dictFind? bom_refs cfg.key with
  | none => rw [hl] at h; exact absurd h (by simp)
  | some r =>
    rw [hl] at h
    simp only [] at h
    by_cases hs : cfg.mime_type ∈ _STANDALONE_TYPES
    · rw [if_pos hs] at h
      rw [← (ok_triple_inj h).1]
      simp [emitsComp, hs, _build_standalone_component, CdxComponent.bom_ref]
    · rw [if_neg hs] at h
      cases hf : _find_mini_manifest cfg mini with
      | none =>
        rw [hf] at h
        simp only [] at h
        rw [← (ok_triple_inj h).1]
        simp [emitsComp, hs, hf]
      | some source =>
        rw [hf] at h
        simp only [] at h
        have hemit : emitsComp mini cfg = true := by simp [emitsComp, hf]
        by_cases hh : cfg.mime_type ∈ _HELM_TYPES
        · rw [if_pos hh] at h
          cases hhb : _build_helm_component u cfg source r bom_refs app_version mini
              config_index sub_chart_keys c with
          | error e => rw [hhb] at h; exact absurd h (by simp)
          | ok t =>
            obtain ⟨comp, c₂⟩ := t
            rw [hhb] at h
            simp only [] at h
            rw [← (ok_triple_inj h).1]
            simp [hemit, build_helm_bom_ref hhb]
        · rw [if_neg hh] at h
          by_cases hd : cfg.mime_type ∈ _DOCKER_TYPES
          · rw [if_pos hd] at h
            rw [← (ok_triple_inj h).1]
            simp [hemit, _build_docker_component]
          · rw [if_neg hd] at h
            rw [← (ok_triple_inj h).1]
            simp [hemit]

/-- The identifiers of the components built by the top-level loop: one per
non-sub-chart declared component that emits, in declaration order, each
the table identifier of its key. -/
theorem buildComponents_refs {u : Nat → String}
    {mini : List ((String × String) × CdxComponent)} {bom_refs : List (CKey × String)}
    {app_version : String} {config_index : List (CKey × ComponentConfig)}
    {sub_chart_keys : List CKey} {L : List ComponentConfig} {c : Nat}
    {comps : List CdxComponent} {warns : List String} {c' : Nat}
    (h : buildComponents u mini bom_refs app_version config_index sub_chart_keys L c =
      .ok (comps, warns, c')) :
    comps.map CdxComponent.bom_ref = L.filterMap (fun cfg =>
      if cfg.key ∈ sub_chart_keys then none
      else if emitsComp mini cfg then some ((dictFind? bom_refs cfg.key).getD "")
      else none) := by
  induction L generalizing c comps warns c' with
  | nil =>
    rw [buildComponents] at h
    rw [← (ok_triple_inj h).1]
    simp
  | cons cfg rest ih =>
    rw [buildComponents] at h
    by_cases hsub : cfg.key ∈ sub_chart_keys
    · rw [if_pos hsub] at h
      rw [List.filterMap_cons, if_pos hsub]
      exact ih h
    · rw [if_neg hsub] at h
      cases hbc : _build_component u cfg mini bom_refs app_version config_index
          sub_chart_keys c with
      | error e => rw [hbc] at h; exact absurd h (by simp)
      | ok t =>
        obtain ⟨comp?, warn?, c₁⟩ := t
        rw [hbc] at h
        simp only [] at h
        cases hrec : buildComponents u mini bom_refs app_version config_index
            sub_chart_keys rest c₁ with
        | error e => rw [hrec] at h; exact absurd h (by simp)
        | ok t2 =>
          obtain ⟨comps2, warns2, c₂⟩ := t2
          rw [hrec] at h
          simp only [] at h
          rw [← (ok_triple_inj h).1, List.filterMap_cons, if_neg hsub]
          have hself := build_component_refs hbc
          rw [List.map_append, ih hrec]
          cases comp? with
          | none =>
            simp only [Option.map_none'] at hself
            simp [← hself]
          | some comp =>
            simp only [Option.map_some'] at hself
            simp [← hself]

/-! ## Counting and last-occurrence lemmas -/

theorem count_filterMap_pos {α β : Type} [DecidableEq β] {L : List α} {f : α → Option β}
    {r : β} {j : Nat} (hj : j < L.length) (h : f (L.get ⟨j, hj⟩) = some r) :
    1 ≤ (L.filterMap f).count r := by
  induction L generalizing j with
  | nil => exact absurd hj (Nat.not_lt_zero j)
  | cons a rest ih =>
    cases j with
    | zero =>
      have ha : f a = some r := h
      simp [List.filterMap_cons, ha, List.count_cons]
    | succ m =>
      have hm : m < rest.length := Nat.lt_of_succ_lt_succ hj
      have hr : f (rest.get ⟨m, hm⟩) = some r := h
      have := ih hm hr
      rw [List.filterMap_cons]
      cases hfa : f a with
      | none => exact this
      | some b =>
        rw [List.count_cons]
        omega

theorem count_filterMap_two {α β : Type} [DecidableEq β] {L : List α} {f : α → Option β}
    {r : β} {i j : Nat} (hij : i < j) (hj : j < L.length)
    (hi : f (L.get ⟨i, Nat.lt_trans hij hj⟩) = some r)
    (hjf : f (L.get ⟨j, hj⟩) = some r) :
    2 ≤ (L.filterMap f).count r := by
  induction L generalizing i j with
  | nil => exact absurd hj (Nat.not_lt_zero j)
  | cons a rest ih =>
    cases i with
    | zero =>
      have ha : f a = some r := hi
      cases j with
      | zero => exact absurd hij (Nat.lt_irrefl 0)
      | succ m =>
        have hm : m < rest.length := Nat.lt_of_succ_lt_succ hj
        have hr : f (rest.get ⟨m, hm⟩) = some r := hjf
        have h1 := count_filterMap_pos hm hr
        rw [List.filterMap_cons, ha, List.count_cons_self]
        omega
    | succ n =>
      cases j with
      | zero => exact absurd hij (Nat.not_lt_zero _)
      | succ m =>
        have hm : m < rest.length := Nat.lt_of_succ_lt_succ hj
        have hnm : n < m := Nat.lt_of_succ_lt_succ hij
        have hi' : f (rest.get ⟨n, Nat.lt_trans hnm hm⟩) = some r := hi
        have hj' : f (rest.get ⟨m, hm⟩) = some r := hjf
        have := ih hnm hm hi' hj'
        rw [List.filterMap_cons]
        cases hfa : f a with
        | none => exact this
        | some b =>
          rw [List.count_cons]
          omega

/-- When position `j` is the last declaration with key `k`, the identifier
table binds `k` to the identifier drawn at position `j` (later declarations
overwrite earlier ones). -/
theorem bomRefsFrom_last {u : Nat → String} {L : List ComponentConfig} {c0 j : Nat}
    {k : CKey} (hj : j < L.length) (hkey : (L.get ⟨j, hj⟩).key = k)
    (hlast : ∀ m, ∀ hm : m < L.length, j < m → (L.get ⟨m, hm⟩).key ≠ k) :
    dictFind? (bomRefsFrom u L c0) k = some (_make_bom_ref (u (c0 + j)) k.1) := by
  induction L generalizing c0 j with
  | nil => exact absurd hj (Nat.not_lt_zero j)
  | cons comp rest ih =>
    rw [bomRefsFrom, dictFind?]
    cases j with
    | zero =>
      have hck : comp.key = k := hkey
      have hnone : dictFind? (bomRefsFrom u rest (c0 + 1)) k = none := by
        cases hr : dictFind? (bomRefsFrom u rest (c0 + 1)) k with
        | none => rfl
        | some r =>
          obtain ⟨i, hi, hk, _⟩ := bomRefsFrom_sound hr
          exact absurd hk (hlast (i + 1) (Nat.succ_lt_succ hi) (Nat.succ_pos i))
      rw [hnone, if_pos hck.symm]
      have hn : comp.name = k.1 := by rw [← hck]; rfl
      rw [hn]
      rfl
    | succ m =>
      have hm : m < rest.length := Nat.lt_of_succ_lt_succ hj
      have hkey' : (rest.get ⟨m, hm⟩).key = k := hkey
      have hlast' : ∀ m', ∀ hm' : m' < rest.length, m < m' →
          (rest.get ⟨m', hm'⟩).key ≠ k := fun m' hm' hlt =>
        hlast (m' + 1) (Nat.succ_lt_succ hm') (Nat.succ_lt_succ hlt)
      rw [ih hm hkey' hlast']
      have : c0 + 1 + m = c0 + (m + 1) := by omega
      rw [this]

/-- Destructuring a successful assembly: the top-level loop succeeded and
produced exactly the manifest's component list and the warning list. -/
theorem build_manifest_ok_parts {u : Nat → String} {now : String} {config : BuildConfig}
    {mini : List ((String × String) × CdxComponent)} {vo no : Option String}
    {bom : CycloneDxBom} {warns : List String}
    (h : build_manifest u now config mini vo no = .ok (bom, warns)) :
    ∃ c', buildComponents u mini (bomRefsFrom u config.components 0)
        (pyOr vo config.application_version) (configIndexFrom config.components)
        (_find_sub_charts config) config.components (config.components.length + 1) =
      .ok (bom.components, warns, c') := by
  unfold build_manifest at h
  simp only [] at h
  cases hbc : buildComponents u mini (bomRefsFrom u config.components 0)
      (pyOr vo config.application_version) (configIndexFrom config.components)
      (_find_sub_charts config) config.components (config.components.length + 1) with
  | error e => rw [hbc] at h; exact absurd h (by simp)
  | ok t =>
    obtain ⟨comps, ws, c'⟩ := t
    rw [hbc] at h
    simp only [] at h
    cases hdeps : _build_dependencies config (bomRefsFrom u config.components 0)
        (_make_bom_ref (u config.components.length) (pyOr no config.application_name))
        (_find_sub_charts config) with
    | error e => rw [hdeps] at h; exact absurd h (by simp)
    | ok deps =>
      rw [hdeps] at h
      simp only [] at h
      injection h with h1
      injection h1 with h2 h3
      refine ⟨c', ?_⟩
      rw [← h2, ← h3]

/-- `emitsComp` depends only on the component's key. -/
theorem emitsComp_congr {mini : List ((String × String) × CdxComponent)}
    {c1 c2 : ComponentConfig} (h : c1.key = c2.key) :
    emitsComp mini c1 = emitsComp mini c2 := by
  unfold ComponentConfig.key at h
  injection h with hn hm
  simp [emitsComp, _find_mini_manifest, hn, hm]

/-! ## Edge- and mapping-target lemmas -/

theorem dictInsert_fst_mem {κ α : Type} [DecidableEq κ] {m : List (κ × α)} {k k' : κ}
    {v : α} (h : k' ∈ (dictInsert m k v).map Prod.fst) :
    k' ∈ m.map Prod.fst ∨ k' = k := by
  induction m with
  | nil =>
    simp [dictInsert] at h
    exact Or.inr h
  | cons p rest ih =>
    obtain ⟨k₀, v₀⟩ := p
    rw [dictInsert] at h
    by_cases hk : k = k₀
    · rw [if_pos hk] at h
      simp only [List.map_cons, List.mem_cons] at h ⊢
      rcases h with h | h
      · exact Or.inl (Or.inl h)
      · exact Or.inl (Or.inr h)
    · rw [if_neg hk] at h
      simp only [List.map_cons, List.mem_cons] at h ⊢
      rcases h with h | h
      · exact Or.inl (Or.inl h)
      · rcases ih h with h2 | h2
        · exact Or.inl (Or.inr h2)
        · exact Or.inr h2

theorem dictInsert_fst_self {κ α : Type} [DecidableEq κ] (m : List (κ × α)) (k : κ)
    (v : α) : k ∈ (dictInsert m k v).map Prod.fst := by
  induction m with
  | nil => simp [dictInsert]
  | cons p rest ih =>
    obtain ⟨k₀, v₀⟩ := p
    rw [dictInsert]
    by_cases hk : k = k₀
    · rw [if_pos hk]
      simp [hk]
    · rw [if_neg hk]
      simp only [List.map_cons, List.mem_cons]
      exact Or.inr ih

theorem dictInsert_fst_preserve {κ α : Type} [DecidableEq κ] {m : List (κ × α)} {k' : κ}
    (k : κ) (v : α) (h : k' ∈ m.map Prod.fst) :
    k' ∈ (dictInsert m k v).map Prod.fst := by
  induction m with
  | nil => simp at h
  | cons p rest ih =>
    obtain ⟨k₀, v₀⟩ := p
    rw [dictInsert]
    by_cases hk : k = k₀
    · rw [if_pos hk]
      simpa using h
    · rw [if_neg hk]
      simp only [List.map_cons, List.mem_cons] at h ⊢
      rcases h with h | h
      · exact Or.inl h
      · exact Or.inr (ih h)

/-- Every key of a generated artifact mapping is either a key of the
accumulator or a binding of the identifier table. -/
theorem artifactMappingsAux_keys {bom_refs : List (CKey × String)}
    {m : List (String × List (String × String))} {deps : List DependencyConfig}
    {x : String} (h : x ∈ (artifactMappingsAux bom_refs m deps).map Prod.fst) :
    x ∈ m.map Prod.fst ∨ ∃ k', dictFind? bom_refs k' = some x := by
  induction deps generalizing m with
  | nil => exact Or.inl h
  | cons dep rest ih =>
    rw [artifactMappingsAux] at h
    rcases ih h with hm' | hex
    · by_cases hmime : dep.mime_type ∉ _HELM_TYPES
      · rw [if_pos hmime] at hm'
        cases hpfx : dep.values_path_pfx with
        | none =>
          rw [hpfx] at hm'
          exact Or.inl hm'
        | some p =>
          rw [hpfx] at hm'
          cases hlk : dictFind? bom_refs dep.key with
          | none =>
            rw [hlk] at hm'
            exact Or.inl hm'
          | some rr =>
            rw [hlk] at hm'
            rcases dictInsert_fst_mem hm' with h2 | h2
            · exact Or.inl h2
            · refine Or.inr ⟨dep.key, ?_⟩
              rw [hlk, h2]
      · rw [if_neg hmime] at hm'
        exact Or.inl hm'
    · exact Or.inr hex

theorem artifactMappingsAux_keys_mono {bom_refs : List (CKey × String)}
    {m : List (String × List (String × String))} {deps : List DependencyConfig}
    {x : String} (h : x ∈ m.map Prod.fst) :
    x ∈ (artifactMappingsAux bom_refs m deps).map Prod.fst := by
  induction deps generalizing m with
  | nil => exact h
  | cons dep rest ih =>
    rw [artifactMappingsAux]
    apply ih
    by_cases hmime : dep.mime_type ∉ _HELM_TYPES
    · rw [if_pos hmime]
      cases hpfx : dep.values_path_pfx with
      | none => exact h
      | some p =>
        cases hlk : dictFind? bom_refs dep.key with
        | none => exact h
        | some rr => exact dictInsert_fst_preserve _ _ h
    · rw [if_neg hmime]
      exact h

/-- A non-Helm dependency edge with a values-path prefix and a table
binding contributes its binding as an artifact-mapping key. -/
theorem artifactMappings_key_present {bom_refs : List (CKey × String)}
    {deps : List DependencyConfig} {dep : DependencyConfig} {p r : String}
    (hd : dep ∈ deps) (hmime : dep.mime_type ∉ _HELM_TYPES)
    (hpfx : dep.values_path_pfx = some p)
    (hr : dictFind? bom_refs dep.key = some r) :
    ∀ m, r ∈ (artifactMappingsAux bom_refs m deps).map Prod.fst := by
  induction deps with
  | nil => exact absurd hd (List.not_mem_nil dep)
  | cons d rest ih =>
    intro m
    rw [artifactMappingsAux]
    rcases List.mem_cons.mp hd with hhead | htail
    · subst hhead
      apply artifactMappingsAux_keys_mono
      rw [if_pos hmime, hpfx, hr]
      exact dictInsert_fst_self _ _ _
    · exact ih htail _

/-- Every resolved dependency target is a binding of the identifier
table. -/
theorem depRefsOf_mem_exists {bom_refs : List (CKey × String)}
    {deps : List DependencyConfig} {t : String} (h : t ∈ depRefsOf bom_refs deps) :
    ∃ k', dictFind? bom_refs k' = some t := by
  induction deps with
  | nil => simp [depRefsOf] at h
  | cons dep rest ih =>
    rw [depRefsOf] at h
    cases hlk : dictFind? bom_refs dep.key with
    | none =>
      rw [hlk] at h
      exact ih h
    | some rr =>
      rw [hlk] at h
      rcases List.mem_cons.mp h with hhead | htail
      · refine ⟨dep.key, ?_⟩
        rw [hlk, hhead]
      · exact ih htail

/-- A dependency edge whose key has a table binding contributes that
binding to the resolved targets. -/
theorem depRefsOf_target {bom_refs : List (CKey × String)}
    {deps : List DependencyConfig} {dep : DependencyConfig} {r : String}
    (hd : dep ∈ deps) (hr : dictFind? bom_refs dep.key = some r) :
    r ∈ depRefsOf bom_refs deps := by
  induction deps with
  | nil => exact absurd hd (List.not_mem_nil dep)
  | cons d rest ih =>
    rw [depRefsOf]
    rcases List.mem_cons.mp hd with hhead | htail
    · subst hhead
      rw [hr]
      exact List.mem_cons_self _ _
    · cases hlk : dictFind? bom_refs d.key with
      | none => exact ih htail
      | some rr => exact List.mem_cons_of_mem _ (ih htail)

/-- Every top-level reference in the synthetic application edge is a table
binding. -/
theorem topLevelRefs_mem {bom_refs : List (CKey × String)} {sub_chart_keys : List CKey}
    {L : List ComponentConfig} {rs : List String} {t : String}
    (h : topLevelRefs bom_refs sub_chart_keys L = .ok rs) (ht : t ∈ rs) :
    ∃ k', dictFind? bom_refs k' = some t := by
  induction L generalizing rs with
  | nil =>
    rw [topLevelRefs] at h
    injection h with h1
    rw [← h1] at ht
    exact absurd ht (List.not_mem_nil t)
  | cons comp rest ih =>
    rw [topLevelRefs] at h
    by_cases hsub : comp.key ∈ sub_chart_keys
    · rw [if_pos hsub] at h
      exact ih h ht
    · rw [if_neg hsub] at h
      cases hlk : dictFind? bom_refs comp.key with
      | none =>
        rw [hlk] at h
        exact absurd h (by simp)
      | some r =>
        rw [hlk] at h
        simp only [] at h
        cases hrec : topLevelRefs bom_refs sub_chart_keys rest with
        | error e =>
          rw [hrec] at h
          exact absurd h (by simp)
        | ok rs2 =>
          rw [hrec] at h
          simp only [] at h
          injection h with h1
          rw [← h1] at ht
          rcases List.mem_cons.mp ht with hhead | htail
          · refine ⟨comp.key, ?_⟩
            rw [hlk, hhead]
          · exact ih hrec htail

/-- Every per-component edge carries a table binding as its ref and only
table bindings as targets. -/
theorem compEdges_mem {bom_refs : List (CKey × String)} {sub_chart_keys : List CKey}
    {L : List ComponentConfig} {es : List CdxDependency} {e : CdxDependency}
    (h : compEdges bom_refs sub_chart_keys L = .ok es) (he : e ∈ es) :
    (∃ k', dictFind? bom_refs k' = some e.ref) ∧
    ∀ t ∈ e.depends_on, ∃ k', dictFind? bom_refs k' = some t := by
  induction L generalizing es with
  | nil =>
    rw [compEdges] at h
    injection h with h1
    rw [← h1] at he
    exact absurd he (List.not_mem_nil e)
  | cons comp rest ih =>
    rw [compEdges] at h
    by_cases hsub : comp.key ∈ sub_chart_keys
    · rw [if_pos hsub] at h
      exact ih h he
    · rw [if_neg hsub] at h
      cases hlk : dictFind? bom_refs comp.key with
      | none =>
        rw [hlk] at h
        exact absurd h (by simp)
      | some comp_ref =>
        rw [hlk] at h
        simp only [] at h
        cases hrec : compEdges bom_refs sub_chart_keys rest with
        | error e2 =>
          rw [hrec] at h
          exact absurd h (by simp)
        | ok es2 =>
          rw [hrec] at h
          simp only [] at h
          injection h with h1
          by_cases hdr : depRefsOf bom_refs comp.depends_on ≠ []
          · rw [if_pos hdr] at h1
            rw [← h1] at he
            rcases List.mem_cons.mp he with hhead | htail
            · subst hhead
              refine ⟨⟨comp.key, hlk⟩, fun t ht => ?_⟩
              exact depRefsOf_mem_exists ht
            · exact ih hrec htail
          · rw [if_neg hdr] at h1
            rw [← h1] at he
            exact ih hrec he

/-- Every sub-chart edge carries a table binding as its ref and only table
bindings as targets. -/
theorem subChartEdges_mem {components : List ComponentConfig}
    {bom_refs : List (CKey × String)} {keys : List CKey} {es : List CdxDependency}
    {e : CdxDependency}
    (h : subChartEdges components bom_refs keys = .ok es) (he : e ∈ es) :
    (∃ k', dictFind? bom_refs k' = some e.ref) ∧
    ∀ t ∈ e.depends_on, ∃ k', dictFind? bom_refs k' = some t := by
  induction keys generalizing es with
  | nil =>
    rw [subChartEdges] at h
    injection h with h1
    rw [← h1] at he
    exact absurd he (List.not_mem_nil e)
  | cons sub_key rest ih =>
    rw [subChartEdges] at h
    cases hcc : firstConfigWithKey components sub_key with
    | none =>
      rw [hcc] at h
      exact ih h he
    | some cc =>
      rw [hcc] at h
      simp only [] at h
      cases hlk : dictFind? bom_refs sub_key with
      | none =>
        rw [hlk] at h
        exact absurd h (by simp)
      | some sub_ref =>
        rw [hlk] at h
        simp only [] at h
        cases hrec : subChartEdges components bom_refs rest with
        | error e2 =>
          rw [hrec] at h
          exact absurd h (by simp)
        | ok es2 =>
          rw [hrec] at h
          simp only [] at h
          injection h with h1
          by_cases hdr : depRefsOf bom_refs cc.depends_on ≠ []
          · rw [if_pos hdr] at h1
            rw [← h1] at he
            rcases List.mem_cons.mp he with hhead | htail
            · subst hhead
              refine ⟨⟨sub_key, hlk⟩, fun t ht => ?_⟩
              exact depRefsOf_mem_exists ht
            · exact ih hrec htail
          · rw [if_neg hdr] at h1
            rw [← h1] at he
            exact ih hrec he

/-- Every edge of `_build_dependencies` has the application identifier or
a table binding as its ref, and only table bindings as targets. -/
theorem build_dependencies_mem {config : BuildConfig} {bom_refs : List (CKey × String)}
    {app_bom_ref : String} {sub_chart_keys : List CKey} {ds : List CdxDependency}
    {e : CdxDependency}
    (h : _build_dependencies config bom_refs app_bom_ref sub_chart_keys = .ok ds)
    (he : e ∈ ds) :
    (e.ref = app_bom_ref ∨ ∃ k', dictFind? bom_refs k' = some e.ref) ∧
    ∀ t ∈ e.depends_on, ∃ k', dictFind? bom_refs k' = some t := by
  unfold _build_dependencies at h
  cases htop : topLevelRefs bom_refs sub_chart_keys config.components with
  | error e2 =>
    rw [htop] at h
    exact absurd h (by simp)
  | ok top =>
    rw [htop] at h
    simp only [] at h
    cases hces : compEdges bom_refs sub_chart_keys config.components with
    | error e2 =>
      rw [hces] at h
      exact absurd h (by simp)
    | ok ces =>
      rw [hces] at h
      simp only [] at h
      cases hses : subChartEdges config.components bom_refs sub_chart_keys with
      | error e2 =>
        rw [hses] at h
        exact absurd h (by simp)
      | ok ses =>
        rw [hses] at h
        simp only [] at h
        injection h with h1
        rw [← h1] at he
        rcases List.mem_cons.mp he with hhead | htail
        · subst hhead
          exact ⟨Or.inl rfl, fun t ht => topLevelRefs_mem htop ht⟩
        · rcases List.mem_append.mp htail with hce | hse
          · obtain ⟨h2, h3⟩ := compEdges_mem hces hce
            exact ⟨Or.inr h2, h3⟩
          · obtain ⟨h2, h3⟩ := subChartEdges_mem hses hse
            exact ⟨Or.inr h2, h3⟩

/-- Destructuring a successful assembly, dependency side: the edge list of
the manifest is exactly the `_build_dependencies` output. -/
theorem build_manifest_ok_deps {u : Nat → String} {now : String} {config : BuildConfig}
    {mini : List ((String × String) × CdxComponent)} {vo no : Option String}
    {bom : CycloneDxBom} {warns : List String}
    (h : build_manifest u now config mini vo no = .ok (bom, warns)) :
    _build_dependencies config (bomRefsFrom u config.components 0)
      (_make_bom_ref (u config.components.length) (pyOr no config.application_name))
      (_find_sub_charts config) = .ok bom.dependencies := by
  unfold build_manifest at h
  simp only [] at h
  cases hbc : buildComponents u mini (bomRefsFrom u config.components 0)
      (pyOr vo config.application_version) (configIndexFrom config.components)
      (_find_sub_charts config) config.components (config.components.length + 1) with
  | error e => rw [hbc] at h; exact absurd h (by simp)
  | ok t =>
    obtain ⟨comps, ws, c'⟩ := t
    rw [hbc] at h
    simp only [] at h
    cases hdeps : _build_dependencies config (bomRefsFrom u config.components 0)
        (_make_bom_ref (u config.components.length) (pyOr no config.application_name))
        (_find_sub_charts config) with
    | error e => rw [hdeps] at h; exact absurd h (by simp)
    | ok deps =>
      rw [hdeps] at h
      simp only [] at h
      injection h with h1
      injection h1 with h2 h3
      rw [← h2]

/-- Under the token contract, no table binding ever equals the superseded
identifier drawn at an earlier duplicate position `i`: the table binds
their shared key to the later draw `j`, and every other key binds a
distinct draw. -/
theorem binding_ne_superseded {u : Nat → String} {L : List ComponentConfig}
    (hg : GoodTokens u L.length) {i j : Nat} (hij : i < j) (hj : j < L.length)
    (hkey : (L.get ⟨i, Nat.lt_trans hij hj⟩).key = (L.get ⟨j, hj⟩).key)
    (hlast : ∀ m, ∀ hm : m < L.length, j < m → (L.get ⟨m, hm⟩).key ≠ (L.get ⟨j, hj⟩).key)
    {key : CKey} {r : String} (h : dictFind? (bomRefsFrom u L 0) key = some r) :
    r ≠ _make_bom_ref (u i) (L.get ⟨i, Nat.lt_trans hij hj⟩).name := by
  intro heq
  have hi : i < L.length := Nat.lt_trans hij hj
  obtain ⟨m, hm, hkm, hrm⟩ := bomRefsFrom_sound h
  rw [Nat.zero_add] at hrm
  obtain ⟨hname, htok⟩ := make_bom_ref_inj (hg.1 m hm) (hg.1 i hi) (hrm.symm.trans heq)
  have hmi : m = i := hg.2 m hm i hi htok
  have hkm' : (L.get ⟨i, hi⟩).key = key := by
    have hfin : (⟨m, hm⟩ : Fin L.length) = ⟨i, hi⟩ := Fin.ext hmi
    rw [← hfin]
    exact hkm
  have hkj : (L.get ⟨j, hj⟩).key = key := by
    rw [← hkey]
    exact hkm'
  have hlast' : ∀ m', ∀ hm' : m' < L.length, j < m' → (L.get ⟨m', hm'⟩).key ≠ key :=
    fun m' hm' hlt h' => hlast m' hm' hlt (h'.trans hkj.symm)
  have hlookj : dictFind? (bomRefsFrom u L 0) key =
      some (_make_bom_ref (u (0 + j)) key.1) := bomRefsFrom_last hj hkj hlast'
  rw [Nat.zero_add] at hlookj
  have hr2 : r = _make_bom_ref (u j) key.1 := Option.some.inj (h.symm.trans hlookj)
  obtain ⟨_, htok2⟩ := make_bom_ref_inj (hg.1 j hj) (hg.1 i hi) (hr2.symm.trans heq)
  have : j = i := hg.2 j hj i hi htok2
  omega


/-! ## Claim C10: duplicate (name, mime_type) declarations -/

/-- C10 counterexample: with two declared components carrying the identical
`(name, mime_type)` key but no descriptor in the table, `build_manifest`
emits *no* output component at all (it emits two warnings instead), so the
claim's unconditional "emits both as separate output components" fails.
(The dependency edge list still shows the single shared identifier, listed
twice in the synthetic application edge.) -/
theorem C10_counterexample :
    build_manifest uDemo "2026-01-01T00:00:00Z" cfgDup [] none none = .ok
      (⟨"urn:uuid:tok3", "../schemas/application-manifest.schema.json", "CycloneDX",
        "1.6", 1,
        ⟨"2026-01-01T00:00:00Z",
         ⟨"dup-app:tok2", "application", "application/vnd.nc.application", "dup-app", "1.0.0"⟩,
         ⟨[⟨"application", "am-build-cli", "0.1.0"⟩]⟩⟩,
        [],
        [⟨"dup-app:tok2", ["img:tok1", "img:tok1"]⟩]⟩,
       ["WARNING: component 'img' (application/vnd.docker.image) not found in mini-manifests — skipped",
        "WARNING: component 'img' (application/vnd.docker.image) not found in mini-manifests — skipped"]) := rfl

/-- C10 (amended): if a build configuration declares the identical
`(name, mime_type)` key at two positions `i < j` (with `j` the last such
position) and the key is not classified as a sub-chart, then whenever
assembly succeeds: (1) the identifier table binds the key to the
identifier generated for the *later* declaration; (2) when the key is
buildable (standalone mime type, or descriptor present) the output
contains (at least) two separate top-level components carrying that same
single identifier; (3) when it is not buildable, both occurrences are
omitted: no top-level output component carries the key's identifier;
(4) no top-level output component carries the superseded earlier
identifier; (5) no dependency edge carries the superseded identifier as
its ref or among its targets; (6) the superseded identifier is never an
artifact-mapping key for any component configuration; (7) every
dependency edge naming the key resolves it to the single later
identifier; (8) every artifact mapping generated for a values-path-prefixed
non-Helm edge on the key uses the single later identifier as its mapping
key. -/
theorem C10_duplicate_key_single_identifier (u : Nat → String) (now : String)
    (config : BuildConfig) (mini : List ((String × String) × CdxComponent))
    (vo no : Option String) (i j : Nat) (hij : i < j) (hj : j < config.components.length)
    (hkey : (config.components.get ⟨i, Nat.lt_trans hij hj⟩).key =
            (config.components.get ⟨j, hj⟩).key)
    (hsub : (config.components.get ⟨j, hj⟩).key ∉ _find_sub_charts config)
    (hlast : ∀ m, ∀ hm : m < config.components.length, j < m →
      (config.components.get ⟨m, hm⟩).key ≠ (config.components.get ⟨j, hj⟩).key)
    (hg : GoodTokens u (config.components.length + 1))
    (hok : ∃ bw, build_manifest u now config mini vo no = .ok bw) :
    dictFind? (bomRefsFrom u config.components 0) (config.components.get ⟨j, hj⟩).key =
      some (_make_bom_ref (u j) (config.components.get ⟨j, hj⟩).name) ∧
    (emitsComp mini (config.components.get ⟨j, hj⟩) = true →
      2 ≤ ((bomComponents (build_manifest u now config mini vo no)).map
            CdxComponent.bom_ref).count
          (_make_bom_ref (u j) (config.components.get ⟨j, hj⟩).name)) ∧
    (emitsComp mini (config.components.get ⟨j, hj⟩) = false →
      ∀ comp ∈ bomComponents (build_manifest u now config mini vo no),
        comp.bom_ref ≠ _make_bom_ref (u j) (config.components.get ⟨j, hj⟩).name) ∧
    (∀ comp ∈ bomComponents (build_manifest u now config mini vo no),
      comp.bom_ref ≠
        _make_bom_ref (u i) (config.components.get ⟨i, Nat.lt_trans hij hj⟩).name) ∧
    (∀ e ∈ bomDeps (build_manifest u now config mini vo no),
      e.ref ≠ _make_bom_ref (u i) (config.components.get ⟨i, Nat.lt_trans hij hj⟩).name ∧
      ∀ t ∈ e.depends_on,
        t ≠ _make_bom_ref (u i) (config.components.get ⟨i, Nat.lt_trans hij hj⟩).name) ∧
    (∀ cfg : ComponentConfig,
      _make_bom_ref (u i) (config.components.get ⟨i, Nat.lt_trans hij hj⟩).name ∉
        (_build_artifact_mappings cfg (bomRefsFrom u config.components 0)).map Prod.fst) ∧
    (∀ deps : List DependencyConfig, ∀ dep ∈ deps,
      DependencyConfig.key dep = (config.components.get ⟨j, hj⟩).key →
      _make_bom_ref (u j) (config.components.get ⟨j, hj⟩).name ∈
        depRefsOf (bomRefsFrom u config.components 0) deps) ∧
    (∀ cfg : ComponentConfig, ∀ dep ∈ cfg.depends_on, ∀ p : String,
      DependencyConfig.key dep = (config.components.get ⟨j, hj⟩).key →
      dep.mime_type ∉ _HELM_TYPES → dep.values_path_pfx = some p →
      _make_bom_ref (u j) (config.components.get ⟨j, hj⟩).name ∈
        (_build_artifact_mappings cfg (bomRefsFrom u config.components 0)).map
          Prod.fst) := by
  have hi : i < config.components.length := Nat.lt_trans hij hj
  have hgn : GoodTokens u config.components.length :=
    ⟨fun a ha => hg.1 a (Nat.lt_succ_of_lt ha),
     fun a ha b hb hab => hg.2 a (Nat.lt_succ_of_lt ha) b (Nat.lt_succ_of_lt hb) hab⟩
  have hlook : dictFind? (bomRefsFrom u config.components 0)
      (config.components.get ⟨j, hj⟩).key =
      some (_make_bom_ref (u (0 + j)) (config.components.get ⟨j, hj⟩).key.1) :=
    bomRefsFrom_last hj rfl hlast
  rw [Nat.zero_add] at hlook
  have hlook' : dictFind? (bomRefsFrom u config.components 0)
      (config.components.get ⟨j, hj⟩).key =
      some (_make_bom_ref (u j) (config.components.get ⟨j, hj⟩).name) := hlook
  obtain ⟨bw, hbw⟩ := hok
  obtain ⟨bom, warns⟩ := bw
  obtain ⟨c', hbc⟩ := build_manifest_ok_parts hbw
  have hmap := buildComponents_refs hbc
  have hchar : ∀ x ∈ bom.components.map CdxComponent.bom_ref,
      ∃ cfg, cfg ∈ config.components ∧ cfg.key ∉ _find_sub_charts config ∧
        emitsComp mini cfg = true ∧
        dictFind? (bomRefsFrom u config.components 0) cfg.key = some x := by
    intro x hx
    rw [hmap] at hx
    obtain ⟨cfg, hcfgmem, hcfgeq⟩ := List.mem_filterMap.mp hx
    by_cases hcs : cfg.key ∈ _find_sub_charts config
    · rw [if_pos hcs] at hcfgeq
      exact absurd hcfgeq (by simp)
    · rw [if_neg hcs] at hcfgeq
      cases hce : emitsComp mini cfg with
      | false =>
        rw [hce] at hcfgeq
        exact absurd hcfgeq (by simp)
      | true =>
        rw [hce, if_pos rfl] at hcfgeq
        have hsome : (dictFind? (bomRefsFrom u config.components 0) cfg.key).isSome :=
          bomRefsFrom_complete ⟨cfg, hcfgmem, rfl⟩
        cases hlk : dictFind? (bomRefsFrom u config.components 0) cfg.key with
        | none =>
          rw [hlk] at hsome
          simp at hsome
        | some rc =>
          rw [hlk] at hcfgeq
          have h1 := Option.some.inj hcfgeq
          simp only [Option.getD_some] at h1
          refine ⟨cfg, hcfgmem, hcs, hce, ?_⟩
          rw [hlk, h1]
  refine ⟨hlook', ?_, ?_, ?_, ?_, ?_, ?_, ?_⟩
  · intro hemit
    rw [hbw]
    show 2 ≤ (bom.components.map CdxComponent.bom_ref).count _
    rw [hmap]
    apply count_filterMap_two hij hj
    · rw [if_neg (by rw [hkey]; exact hsub)]
      rw [emitsComp_congr hkey, hemit]
      rw [if_pos rfl, hkey, hlook']
      rfl
    · rw [if_neg hsub, hemit, if_pos rfl, hlook']
      rfl
  · intro hemit comp hcomp heq
    have hcomp' : comp ∈ bom.components := by
      rw [hbw] at hcomp
      exact hcomp
    obtain ⟨cfg, hcfgmem, hcs, hce, hlk⟩ :=
      hchar comp.bom_ref (List.mem_map_of_mem CdxComponent.bom_ref hcomp')
    rw [heq] at hlk
    have hkk : cfg.key = (config.components.get ⟨j, hj⟩).key :=
      bomRefsFrom_inj hgn hlk hlook'
    have hec : emitsComp mini cfg = emitsComp mini (config.components.get ⟨j, hj⟩) :=
      emitsComp_congr hkk
    rw [hce, hemit] at hec
    exact absurd hec (by simp)
  · intro comp hcomp heq
    have hcomp' : comp ∈ bom.components := by
      rw [hbw] at hcomp
      exact hcomp
    obtain ⟨cfg, hcfgmem, hcs, hce, hlk⟩ :=
      hchar comp.bom_ref (List.mem_map_of_mem CdxComponent.bom_ref hcomp')
    rw [heq] at hlk
    exact binding_ne_superseded hgn hij hj hkey hlast hlk rfl
  · intro e he
    have he' : e ∈ bom.dependencies := by
      rw [hbw] at he
      exact he
    have hdeps := build_manifest_ok_deps hbw
    obtain ⟨href, htgt⟩ := build_dependencies_mem hdeps he'
    refine ⟨?_, ?_⟩
    · rcases href with happ | hbind
      · rw [happ]
        intro heq
        obtain ⟨_, htok⟩ := make_bom_ref_inj
          (hg.1 config.components.length (Nat.lt_succ_self _))
          (hg.1 i (Nat.lt_succ_of_lt hi)) heq
        have hni := hg.2 config.components.length (Nat.lt_succ_self _) i
          (Nat.lt_succ_of_lt hi) htok
        omega
      · obtain ⟨k', hk'⟩ := hbind
        exact binding_ne_superseded hgn hij hj hkey hlast hk'
    · intro t ht
      obtain ⟨k', hk'⟩ := htgt t ht
      exact binding_ne_superseded hgn hij hj hkey hlast hk'
  · intro cfg hmem
    have hmem' : _make_bom_ref (u i) (config.components.get ⟨i, hi⟩).name ∈
        (artifactMappingsAux (bomRefsFrom u config.components 0) []
          cfg.depends_on).map Prod.fst := hmem
    rcases artifactMappingsAux_keys hmem' with hml | hex
    · exact absurd hml (by simp)
    · obtain ⟨k', hk'⟩ := hex
      exact binding_ne_superseded hgn hij hj hkey hlast hk' rfl
  · intro deps dep hd hdk
    refine depRefsOf_target hd ?_
    rw [hdk]
    exact hlook'
  · intro cfg dep hd p hdk hmime hpfx
    have hr : dictFind? (bomRefsFrom u config.components 0) (DependencyConfig.key dep) =
        some (_make_bom_ref (u j) (config.components.get ⟨j, hj⟩).name) := by
      rw [hdk]
      exact hlook'
    exact artifactMappings_key_present hd hmime hpfx hr []

/-- Two declared standalone components sharing a key, for the C10
witness. -/
def cfgDupS : BuildConfig :=
  .mk "1.0.0" "dup-s-app"
    [.mk "runner" .STANDALONE_RUNNABLE none [], .mk "runner" .STANDALONE_RUNNABLE none []]

/-- C10 witness: for the duplicate standalone configuration under the
concrete 36-character token supply, the table binds the key to the second
declaration's identifier and both output components carry it. -/
theorem C10_witness :
    dictFind? (bomRefsFrom uW cfgDupS.components 0)
        ("runner", MimeType.STANDALONE_RUNNABLE) =
      some (_make_bom_ref (uW 1) "runner") ∧
    2 ≤ ((bomComponents (build_manifest uW "T" cfgDupS [] none none)).map
          CdxComponent.bom_ref).count (_make_bom_ref (uW 1) "runner") :=
  ⟨(C10_duplicate_key_single_identifier uW "T" cfgDupS [] none none 0 1
      (by decide) (by decide) rfl (by decide) (by decide)
      ⟨by decide, by decide⟩ ⟨_, rfl⟩).1,
   (C10_duplicate_key_single_identifier uW "T" cfgDupS [] none none 0 1
      (by decide) (by decide) rfl (by decide) (by decide)
      ⟨by decide, by decide⟩ ⟨_, rfl⟩).2.1 rfl⟩

/-! ## Empty-descriptor-table lemmas -/

/-- `_build_component` against an empty descriptor table: standalone
components are synthesized, everything else warns and is omitted. -/
theorem build_component_empty {u : Nat → String} {cfg : ComponentConfig}
    {bom_refs : List (CKey × String)} {app_version : String}
    {config_index : List (CKey × ComponentConfig)} {sub_chart_keys : List CKey}
    {c : Nat} {r : String} (hr : dictFind? bom_refs cfg.key = some r) :
    _build_component u cfg [] bom_refs app_version config_index sub_chart_keys c =
      if cfg.mime_type ∈ _STANDALONE_TYPES then
        .ok (some (_build_standalone_component cfg r app_version), none, c)
      else
        .ok (none, some ("WARNING: component '" ++ cfg.name ++ "' ("
          ++ cfg.mime_type.value ++ ") not found in mini-manifests — skipped"), c) := by
  unfold _build_component
  rw [hr]
  rfl

/-- The top-level loop against an empty descriptor table: exactly the
synthesized standalones (sub-charts skipped), one warning per other
non-sub-chart component, and an unchanged draw counter. -/
theorem buildComponents_empty {u : Nat → String} {bom_refs : List (CKey × String)}
    {app_version : String} {config_index : List (CKey × ComponentConfig)}
    {sub_chart_keys : List CKey} {L : List ComponentConfig} {c : Nat}
    (href : ∀ cfg ∈ L, (dictFind? bom_refs cfg.key).isSome) :
    buildComponents u [] bom_refs app_version config_index sub_chart_keys L c =
      .ok (L.filterMap (fun cfg =>
             if cfg.key ∈ sub_chart_keys then none
             else if cfg.mime_type ∈ _STANDALONE_TYPES then
               some (_build_standalone_component cfg
                 ((dictFind? bom_refs cfg.key).getD "") app_version)
             else none),
           L.filterMap (fun cfg =>
             if cfg.key ∈ sub_chart_keys then none
             else if cfg.mime_type ∈ _STANDALONE_TYPES then none
             else some ("WARNING: component '" ++ cfg.name ++ "' ("
               ++ cfg.mime_type.value ++ ") not found in mini-manifests — skipped")),
           c) := by
  induction L generalizing c with
  | nil => rfl
  | cons cfg rest ih =>
    have hcfg := href cfg (List.mem_cons_self cfg rest)
    have hrest : ∀ x ∈ rest, (dictFind? bom_refs x.key).isSome :=
      fun x hx => href x (List.mem_cons_of_mem cfg hx)
    rw [buildComponents]
    by_cases hsub : cfg.key ∈ sub_chart_keys
    · rw [if_pos hsub, ih hrest]
      simp [List.filterMap_cons, hsub]
    · rw [if_neg hsub]
      obtain ⟨r, hr⟩ := Option.isSome_iff_exists.mp hcfg
      rw [build_component_empty hr]
      by_cases hs : cfg.mime_type ∈ _STANDALONE_TYPES
      · rw [if_pos hs]
        simp only [] 
        rw [ih hrest]
        simp [List.filterMap_cons, hsub, hs, hr]
      · rw [if_neg hs]
        simp only []
        rw [ih hrest]
        simp [List.filterMap_cons, hsub, hs]

theorem topLevelRefs_ok {bom_refs : List (CKey × String)} {sub_chart_keys : List CKey}
    {L : List ComponentConfig}
    (href : ∀ cfg ∈ L, (dictFind? bom_refs cfg.key).isSome) :
    ∃ rs, topLevelRefs bom_refs sub_chart_keys L = .ok rs := by
  induction L with
  | nil => exact ⟨[], rfl⟩
  | cons comp rest ih =>
    have hrest : ∀ x ∈ rest, (dictFind? bom_refs x.key).isSome :=
      fun x hx => href x (List.mem_cons_of_mem comp hx)
    obtain ⟨rs, hrs⟩ := ih hrest
    rw [topLevelRefs]
    by_cases hsub : comp.key ∈ sub_chart_keys
    · rw [if_pos hsub]
      exact ⟨rs, hrs⟩
    · rw [if_neg hsub]
      obtain ⟨r, hr⟩ := Option.isSome_iff_exists.mp
        (href comp (List.mem_cons_self comp rest))
      rw [hr, hrs]
      exact ⟨r :: rs, rfl⟩

theorem compEdges_ok {bom_refs : List (CKey × String)} {sub_chart_keys : List CKey}
    {L : List ComponentConfig}
    (href : ∀ cfg ∈ L, (dictFind? bom_refs cfg.key).isSome) :
    ∃ es, compEdges bom_refs sub_chart_keys L = .ok es := by
  induction L with
  | nil => exact ⟨[], rfl⟩
  | cons comp rest ih =>
    have hrest : ∀ x ∈ rest, (dictFind? bom_refs x.key).isSome :=
      fun x hx => href x (List.mem_cons_of_mem comp hx)
    obtain ⟨es, hes⟩ := ih hrest
    rw [compEdges]
    by_cases hsub : comp.key ∈ sub_chart_keys
    · rw [if_pos hsub]
      exact ⟨es, hes⟩
    · rw [if_neg hsub]
      obtain ⟨r, hr⟩ := Option.isSome_iff_exists.mp
        (href comp (List.mem_cons_self comp rest))
      rw [hr, hes]
      exact ⟨_, rfl⟩

/-- `firstConfigWithKey` returns a declared component with the key. -/
theorem firstConfigWithKey_sound {L : List ComponentConfig} {k : CKey}
    {cc : ComponentConfig} (h : firstConfigWithKey L k = some cc) :
    cc ∈ L ∧ cc.key = k := by
  induction L with
  | nil => exact absurd h (by simp [firstConfigWithKey])
  | cons comp rest ih =>
    rw [firstConfigWithKey] at h
    by_cases hk : comp.key = k
    · rw [if_pos hk] at h
      obtain rfl := Option.some.inj h
      exact ⟨List.mem_cons_self _ _, hk⟩
    · rw [if_neg hk] at h
      obtain ⟨hmem, hkey⟩ := ih h
      exact ⟨List.mem_cons_of_mem _ hmem, hkey⟩

theorem subChartEdges_ok {components : List ComponentConfig}
    {bom_refs : List (CKey × String)} {keys : List CKey}
    (href : ∀ k cc, firstConfigWithKey components k = some cc →
      (dictFind? bom_refs k).isSome) :
    ∃ es, subChartEdges components bom_refs keys = .ok es := by
  induction keys with
  | nil => exact ⟨[], rfl⟩
  | cons sub_key rest ih =>
    obtain ⟨es, hes⟩ := ih
    rw [subChartEdges]
    cases hcc : firstConfigWithKey components sub_key with
    | none => exact ⟨es, hes⟩
    | some cc =>
      obtain ⟨r, hr⟩ := Option.isSome_iff_exists.mp (href sub_key cc hcc)
      rw [hr, hes]
      exact ⟨_, rfl⟩

/-- `_build_dependencies` succeeds whenever every declared key (and hence
every declared sub-chart key) has an identifier. -/
theorem build_dependencies_ok {config : BuildConfig} {bom_refs : List (CKey × String)}
    {app_bom_ref : String} {sub_chart_keys : List CKey}
    (href : ∀ cfg ∈ config.components, (dictFind? bom_refs cfg.key).isSome) :
    ∃ ds, _build_dependencies config bom_refs app_bom_ref sub_chart_keys = .ok ds := by
  obtain ⟨top, htop⟩ : ∃ rs,
      topLevelRefs bom_refs sub_chart_keys config.components = .ok rs :=
    topLevelRefs_ok href
  obtain ⟨ces, hces⟩ : ∃ es,
      compEdges bom_refs sub_chart_keys config.components = .ok es :=
    compEdges_ok href
  obtain ⟨ses, hses⟩ : ∃ es,
      subChartEdges config.components bom_refs sub_chart_keys = .ok es :=
    subChartEdges_ok
      (fun k cc hcc => by
        obtain ⟨hmem, hkey⟩ := firstConfigWithKey_sound hcc
        rw [← hkey]
        exact href cc hmem)
  rw [_build_dependencies, htop, hces, hses]
  exact ⟨_, rfl⟩

/-- A standalone-typed declared component is never a sub-chart key. -/
theorem standalone_key_not_subchart {config : BuildConfig} {cfg : ComponentConfig}
    (hs : cfg.mime_type ∈ _STANDALONE_TYPES) :
    cfg.key ∉ _find_sub_charts config :=
  fun hmem => standalone_not_helm hs (mem_subCharts_helm hmem)

/-! ## Claim C5: assembly against an empty descriptor table -/

/-- C5 counterexample: for the configuration `chart-a (Helm) → chart-b
(Helm)` with both charts declared and an empty descriptor table, assembly
succeeds with no components and exactly ONE warning, naming only
`chart-a`: the sub-chart `chart-b` is omitted silently, so the claim that
*every* non-standalone declared component is reported by a warning fails. -/
theorem C5_counterexample :
    build_manifest uDemo "2026-01-01T00:00:00Z" cfgAB [] none none = .ok
      (⟨"urn:uuid:tok3", "../schemas/application-manifest.schema.json", "CycloneDX",
        "1.6", 1,
        ⟨"2026-01-01T00:00:00Z",
         ⟨"ab-app:tok2", "application", "application/vnd.nc.application", "ab-app", "1.0.0"⟩,
         ⟨[⟨"application", "am-build-cli", "0.1.0"⟩]⟩⟩,
        [],
        [⟨"ab-app:tok2", ["chart-a:tok0"]⟩, ⟨"chart-a:tok0", ["chart-b:tok1"]⟩]⟩,
       ["WARNING: component 'chart-a' (application/vnd.nc.helm.chart) not found in mini-manifests — skipped"]) := rfl

/-- C5 (amended): for every valid build configuration assembled against an
empty descriptor lookup table, `build_manifest` succeeds; the top-level
components are exactly the synthesized standalone-runnable components of
the config (every non-standalone declared component is omitted); and the
warnings are exactly one string per non-standalone declared component
*that is not classified as a sub-chart* (sub-charts are skipped silently),
in declaration order. -/
theorem C5_empty_table (u : Nat → String) (now : String) (config : BuildConfig)
    (vo no : Option String) :
    ∃ bom warns, build_manifest u now config [] vo no = .ok (bom, warns) ∧
      bom.components = config.components.filterMap (fun cfg =>
        if cfg.mime_type ∈ _STANDALONE_TYPES then
          some (_build_standalone_component cfg
            ((dictFind? (bomRefsFrom u config.components 0) cfg.key).getD "")
            (pyOr vo config.application_version))
        else none) ∧
      warns = config.components.filterMap (fun cfg =>
        if cfg.mime_type ∈ _STANDALONE_TYPES ∨ cfg.key ∈ _find_sub_charts config then none
        else some ("WARNING: component '" ++ cfg.name ++ "' (" ++ cfg.mime_type.value
          ++ ") not found in mini-manifests — skipped")) := by
  have href : ∀ cfg ∈ config.components,
      (dictFind? (bomRefsFrom u config.components 0) cfg.key).isSome :=
    fun cfg hc => bomRefsFrom_complete ⟨cfg, hc, rfl⟩
  have hloop : buildComponents u [] (bomRefsFrom u config.components 0)
      (pyOr vo config.application_version) (configIndexFrom config.components)
      (_find_sub_charts config) config.components (config.components.length + 1) =
      .ok (config.components.filterMap (fun cfg =>
             if cfg.key ∈ _find_sub_charts config then none
             else if cfg.mime_type ∈ _STANDALONE_TYPES then
               some (_build_standalone_component cfg
                 ((dictFind? (bomRefsFrom u config.components 0) cfg.key).getD "")
                 (pyOr vo config.application_version))
             else none),
           config.components.filterMap (fun cfg =>
             if cfg.key ∈ _find_sub_charts config then none
             else if cfg.mime_type ∈ _STANDALONE_TYPES then none
             else some ("WARNING: component '" ++ cfg.name ++ "' ("
               ++ cfg.mime_type.value ++ ") not found in mini-manifests — skipped")),
           config.components.length + 1) :=
    buildComponents_empty href
  obtain ⟨ds, hds⟩ : ∃ ds, _build_dependencies config (bomRefsFrom u config.components 0)
      (_make_bom_ref (u config.components.length) (pyOr no config.application_name))
      (_find_sub_charts config) = .ok ds :=
    build_dependencies_ok href
  have hcompfun : (fun cfg : ComponentConfig =>
      if cfg.key ∈ _find_sub_charts config then none
      else if cfg.mime_type ∈ _STANDALONE_TYPES then
        some (_build_standalone_component cfg
          ((dictFind? (bomRefsFrom u config.components 0) cfg.key).getD "")
          (pyOr vo config.application_version))
      else none) = (fun cfg : ComponentConfig =>
      if cfg.mime_type ∈ _STANDALONE_TYPES then
        some (_build_standalone_component cfg
          ((dictFind? (bomRefsFrom u config.components 0) cfg.key).getD "")
          (pyOr vo config.application_version))
      else none) := by
    funext cfg
    by_cases hs : cfg.mime_type ∈ _STANDALONE_TYPES
    · rw [if_neg (standalone_key_not_subchart hs)]
    · rw [if_neg hs, ite_self]
  have hwarnfun : (fun cfg : ComponentConfig =>
      if cfg.key ∈ _find_sub_charts config then none
      else if cfg.mime_type ∈ _STANDALONE_TYPES then none
      else some ("WARNING: component '" ++ cfg.name ++ "' ("
        ++ cfg.mime_type.value ++ ") not found in mini-manifests — skipped")) =
      (fun cfg : ComponentConfig =>
      if cfg.mime_type ∈ _STANDALONE_TYPES ∨ cfg.key ∈ _find_sub_charts config then none
      else some ("WARNING: component '" ++ cfg.name ++ "' (" ++ cfg.mime_type.value
        ++ ") not found in mini-manifests — skipped")) := by
    funext cfg
    by_cases hs : cfg.mime_type ∈ _STANDALONE_TYPES
    · rw [if_neg (standalone_key_not_subchart hs), if_pos hs, if_pos (Or.inl hs)]
    · by_cases hsub : cfg.key ∈ _find_sub_charts config
      · rw [if_pos hsub, if_pos (Or.inr hsub)]
      · rw [if_neg hsub, if_neg hs, if_neg (by tauto)]
  refine ⟨⟨"urn:uuid:" ++ u (config.components.length + 1),
    "../schemas/application-manifest.schema.json", "CycloneDX", "1.6", 1,
    ⟨now, ⟨_make_bom_ref (u config.components.length) (pyOr no config.application_name),
      "application", "application/vnd.nc.application", pyOr no config.application_name,
      pyOr vo config.application_version⟩,
     ⟨[⟨"application", "am-build-cli", "0.1.0"⟩]⟩⟩,
    config.components.filterMap (fun cfg =>
      if cfg.key ∈ _find_sub_charts config then none
      else if cfg.mime_type ∈ _STANDALONE_TYPES then
        some (_build_standalone_component cfg
          ((dictFind? (bomRefsFrom u config.components 0) cfg.key).getD "")
          (pyOr vo config.application_version))
      else none),
    ds⟩,
    config.components.filterMap (fun cfg =>
      if cfg.key ∈ _find_sub_charts config then none
      else if cfg.mime_type ∈ _STANDALONE_TYPES then none
      else some ("WARNING: component '" ++ cfg.name ++ "' (" ++ cfg.mime_type.value
        ++ ") not found in mini-manifests — skipped")),
    ?_, ?_, ?_⟩
  · unfold build_manifest
    simp only []
    rw [hloop]
    simp only []
    rw [hds]
  · show (config.components.filterMap _) = _
    rw [hcompfun]
  · show (config.components.filterMap _) = _
    rw [hwarnfun]

/-! ## Nesting lemmas for sub-charts -/

theorem nestSubCharts_mem {bom_refs : List (CKey × String)}
    {config_index : List (CKey × ComponentConfig)} {sub_chart_keys : List CKey}
    {deps : List DependencyConfig} {out : List CdxComponent} {dep : DependencyConfig}
    {r : String} {cc : ComponentConfig}
    (h : nestSubCharts bom_refs config_index sub_chart_keys deps = .ok out)
    (hd : dep ∈ deps) (hdk : dep.key ∈ sub_chart_keys)
    (hr : dictFind? bom_refs dep.key = some r)
    (hci : dictFind? config_index dep.key = some cc) :
    ∃ sc ∈ out, sc.bom_ref = r := by
  induction deps generalizing out with
  | nil => exact absurd hd (List.not_mem_nil dep)
  | cons d rest ih =>
    rw [nestSubCharts] at h
    rcases List.mem_cons.mp hd with hhead | htail
    · subst hhead
      rw [if_pos hdk] at h
      have hbs : _build_sub_chart dep.key bom_refs config_index =
          .ok (some (CdxComponent.mk r "application" dep.key.2.value dep.key.1
            none none none (some (helmProperties cc bom_refs)) none (some []) none)) := by
        unfold _build_sub_chart
        rw [hr]
        simp only []
        rw [hci]
      rw [hbs] at h
      simp only [] at h
      cases hrec : nestSubCharts bom_refs config_index sub_chart_keys rest with
      | error e => rw [hrec] at h; exact absurd h (by simp)
      | ok subs2 =>
        rw [hrec] at h
        simp only [] at h
        injection h with h1
        refine ⟨CdxComponent.mk r "application" dep.key.2.value dep.key.1
          none none none (some (helmProperties cc bom_refs)) none (some []) none, ?_, rfl⟩
        rw [← h1]
        exact List.mem_cons_self _ _
    · by_cases hdd : d.key ∈ sub_chart_keys
      · rw [if_pos hdd] at h
        cases hbs : _build_sub_chart d.key bom_refs config_index with
        | error e => rw [hbs] at h; exact absurd h (by simp)
        | ok sub? =>
          rw [hbs] at h
          cases sub? with
          | none =>
            simp only [] at h
            exact ih h htail
          | some sub =>
            simp only [] at h
            cases hrec : nestSubCharts bom_refs config_index sub_chart_keys rest with
            | error e => rw [hrec] at h; exact absurd h (by simp)
            | ok subs2 =>
              rw [hrec] at h
              simp only [] at h
              injection h with h1
              obtain ⟨sc, hscmem, hscref⟩ := ih hrec htail
              refine ⟨sc, ?_, hscref⟩
              rw [← h1]
              exact List.mem_cons_of_mem _ hscmem
      · rw [if_neg hdd] at h
        exact ih h htail

/-- A successfully built Helm component nests a sub-chart for each of its
dependency edges that is a resolvable, declared sub-chart key. -/
theorem build_helm_nested {u : Nat → String} {cfg : ComponentConfig}
    {source : CdxComponent} {bom_ref : String} {bom_refs : List (CKey × String)}
    {app_version : String} {mini : List ((String × String) × CdxComponent)}
    {config_index : List (CKey × ComponentConfig)} {sub_chart_keys : List CKey}
    {c : Nat} {comp : CdxComponent} {c₂ : Nat} {dep : DependencyConfig}
    {r : String} {cc : ComponentConfig}
    (h : _build_helm_component u cfg source bom_ref bom_refs app_version mini config_index
      sub_chart_keys c = .ok (comp, c₂))
    (hd : dep ∈ cfg.depends_on) (hdk : dep.key ∈ sub_chart_keys)
    (hr : dictFind? bom_refs dep.key = some r)
    (hci : dictFind? config_index dep.key = some cc) :
    ∃ sc ∈ (comp.components).getD [], sc.bom_ref = r := by
  rw [build_helm_eq] at h
  cases hn : nestSubCharts bom_refs config_index sub_chart_keys cfg.depends_on with
  | error e => rw [hn] at h; exact absurd h (by simp)
  | ok subs =>
    rw [hn] at h
    simp only [] at h
    injection h with h1
    injection h1 with h2 h3
    obtain ⟨sc, hscmem, hscref⟩ := nestSubCharts_mem hn hd hdk hr hci
    refine ⟨sc, ?_, hscref⟩
    rw [← h2]
    simp only [withHelmUpdate_components, Option.getD_some]
    exact List.mem_append_right _ hscmem

/-- For a Helm-typed component with its descriptor present,
`_build_component` emits a component produced by `_build_helm_component`. -/
theorem build_component_helm_some {u : Nat → String} {cfg : ComponentConfig}
    {mini : List ((String × String) × CdxComponent)} {bom_refs : List (CKey × String)}
    {app_version : String} {config_index : List (CKey × ComponentConfig)}
    {sub_chart_keys : List CKey} {c : Nat} {comp? : Option CdxComponent}
    {warn? : Option String} {c' : Nat} {source : CdxComponent} {r : String}
    (h : _build_component u cfg mini bom_refs app_version config_index sub_chart_keys c =
      .ok (comp?, warn?, c'))
    (hm : cfg.mime_type ∈ _HELM_TYPES)
    (hsrc : _find_mini_manifest cfg mini = some source)
    (hr : dictFind? bom_refs cfg.key = some r) :
    ∃ comp c₂, comp? = some comp ∧
      _build_helm_component u cfg source r bom_refs app_version mini config_index
        sub_chart_keys c = .ok (comp, c₂) := by
  unfold _build_component at h
  rw [hr] at h
  simp only [] at h
  rw [if_neg (helm_not_standalone hm), hsrc] at h
  simp only [] at h
  rw [if_pos hm] at h
  cases hhb : _build_helm_component u cfg source r bom_refs app_version mini config_index
      sub_chart_keys c with
  | error e => rw [hhb] at h; exact absurd h (by simp)
  | ok t =>
    obtain ⟨comp, c₂⟩ := t
    rw [hhb] at h
    simp only [] at h
    exact ⟨comp, c₂, ((ok_triple_inj h).1).symm, rfl⟩

/-- Every non-sub-chart declared component is processed by the loop, and
its output component (if any) is among the produced components. -/
theorem buildComponents_mem {u : Nat → String}
    {mini : List ((String × String) × CdxComponent)} {bom_refs : List (CKey × String)}
    {app_version : String} {config_index : List (CKey × ComponentConfig)}
    {sub_chart_keys : List CKey} {L : List ComponentConfig} {c : Nat}
    {comps : List CdxComponent} {warns : List String} {c' : Nat} {cfg : ComponentConfig}
    (h : buildComponents u mini bom_refs app_version config_index sub_chart_keys L c =
      .ok (comps, warns, c'))
    (hcfg : cfg ∈ L) (hns : cfg.key ∉ sub_chart_keys) :
    ∃ c₀ comp? warn? c₁,
      _build_component u cfg mini bom_refs app_version config_index sub_chart_keys c₀ =
        .ok (comp?, warn?, c₁) ∧ ∀ comp, comp? = some comp → comp ∈ comps := by
  induction L generalizing c comps warns c' with
  | nil => exact absurd hcfg (List.not_mem_nil cfg)
  | cons d rest ih =>
    rw [buildComponents] at h
    rcases List.mem_cons.mp hcfg with hhead | htail
    · subst hhead
      rw [if_neg hns] at h
      cases hbc : _build_component u cfg mini bom_refs app_version config_index
          sub_chart_keys c with
      | error e => rw [hbc] at h; exact absurd h (by simp)
      | ok t =>
        obtain ⟨comp?, warn?, c₁⟩ := t
        rw [hbc] at h
        simp only [] at h
        cases hrec : buildComponents u mini bom_refs app_version config_index
            sub_chart_keys rest c₁ with
        | error e => rw [hrec] at h; exact absurd h (by simp)
        | ok t2 =>
          obtain ⟨comps2, warns2, c₂⟩ := t2
          rw [hrec] at h
          simp only [] at h
          refine ⟨c, comp?, warn?, c₁, hbc, fun comp hc => ?_⟩
          rw [← (ok_triple_inj h).1]
          subst hc
          exact List.mem_append_left _ (List.mem_cons_self _ _)
    · by_cases hdd : d.key ∈ sub_chart_keys
      · rw [if_pos hdd] at h
        exact ih h htail
      · rw [if_neg hdd] at h
        cases hbc : _build_component u d mini bom_refs app_version config_index
            sub_chart_keys c with
        | error e => rw [hbc] at h; exact absurd h (by simp)
        | ok t =>
          obtain ⟨comp?, warn?, c₁⟩ := t
          rw [hbc] at h
          simp only [] at h
          cases hrec : buildComponents u mini bom_refs app_version config_index
              sub_chart_keys rest c₁ with
          | error e => rw [hrec] at h; exact absurd h (by simp)
          | ok t2 =>
            obtain ⟨comps2, warns2, c₂⟩ := t2
            rw [hrec] at h
            simp only [] at h
            obtain ⟨c₀, comp2?, warn2?, c₃, hbc2, hmem2⟩ := ih hrec htail
            refine ⟨c₀, comp2?, warn2?, c₃, hbc2, fun comp hc => ?_⟩
            rw [← (ok_triple_inj h).1]
            exact List.mem_append_right _ (hmem2 comp hc)

/-! ## Claim C1: sub-chart classification and nesting -/

/-- C1 counterexample: the three-level umbrella chain `top-chart →
mid-chart → leaf-chart` (all declared Helm charts, all descriptors
present).  `leaf-chart` is a declared Helm-typed component appearing as a
Helm-typed dependency edge of the declared Helm chart `mid-chart`, so the
claim requires it to appear nested inside `mid-chart`'s component list —
but `mid-chart` is itself a sub-chart, is built by `_build_sub_chart` with
an explicitly empty nested list, and `leaf-chart` appears nowhere in the
output components (its identifier `leaf-chart:tok2` survives only in the
dependency edge list). -/
theorem C1_counterexample :
    build_manifest uDemo "2026-01-01T00:00:00Z" cfgChain tblChain none none = .ok
      (⟨"urn:uuid:tok4", "../schemas/application-manifest.schema.json", "CycloneDX",
        "1.6", 1,
        ⟨"2026-01-01T00:00:00Z",
         ⟨"chain-app:tok3", "application", "application/vnd.nc.application", "chain-app",
          "1.0.0"⟩,
         ⟨[⟨"application", "am-build-cli", "0.1.0"⟩]⟩⟩,
        [CdxComponent.mk "top-chart:tok0" "application" "application/vnd.nc.helm.chart"
          "top-chart" (some "1.0.0") none none
          (some [⟨"isLibrary", .b false⟩]) none
          (some [CdxComponent.mk "mid-chart:tok1" "application"
            "application/vnd.nc.helm.chart" "mid-chart" none none none
            (some [⟨"isLibrary", .b false⟩]) none (some []) none]) none],
        [⟨"chain-app:tok3", ["top-chart:tok0"]⟩,
         ⟨"top-chart:tok0", ["mid-chart:tok1"]⟩,
         ⟨"mid-chart:tok1", ["leaf-chart:tok2"]⟩]⟩,
       []) := rfl

/-- C1 (amended): let `dep` be a declared Helm-typed component appearing as
a Helm-typed dependency edge of a declared Helm-typed component `parent`.
Under the uuid contract, whenever assembly succeeds: (a) no top-level
output component ever carries `dep`'s generated identifier (sub-charts
never appear top-level); and (b) whenever the parent is itself built as a
top-level component — the parent is not classified as a sub-chart and its
descriptor is present — the output contains the parent's component, and a
sub-chart carrying `dep`'s identifier is nested in its component list. -/
theorem C1_subchart_nesting (u : Nat → String) (now : String) (config : BuildConfig)
    (mini : List ((String × String) × CdxComponent)) (vo no : Option String)
    (parent : ComponentConfig) (dep : DependencyConfig)
    (hp : parent ∈ config.components) (hpm : parent.mime_type ∈ _HELM_TYPES)
    (hd : dep ∈ parent.depends_on) (hdm : dep.mime_type ∈ _HELM_TYPES)
    (hdecl : ∃ dc ∈ config.components, dc.key = dep.key)
    (hg : GoodTokens u config.components.length)
    (hok : ∃ bw, build_manifest u now config mini vo no = .ok bw) :
    (∀ comp ∈ bomComponents (build_manifest u now config mini vo no),
      comp.bom_ref ≠ (dictFind? (bomRefsFrom u config.components 0) dep.key).getD "") ∧
    (parent.key ∉ _find_sub_charts config →
      (_find_mini_manifest parent mini).isSome →
      ∃ pc ∈ bomComponents (build_manifest u now config mini vo no),
        pc.bom_ref = (dictFind? (bomRefsFrom u config.components 0) parent.key).getD "" ∧
        ∃ sc ∈ (CdxComponent.components pc).getD [],
          sc.bom_ref = (dictFind? (bomRefsFrom u config.components 0) dep.key).getD "") := by
  obtain ⟨bw, hbw⟩ := hok
  obtain ⟨bom, warns⟩ := bw
  obtain ⟨cend, hbc⟩ := build_manifest_ok_parts hbw
  have hsubk : dep.key ∈ _find_sub_charts config := subcharts_mem hp hpm hd hdm
  obtain ⟨rdep, hrdep⟩ : ∃ r, dictFind? (bomRefsFrom u config.components 0) dep.key = some r :=
    Option.isSome_iff_exists.mp (bomRefsFrom_complete hdecl)
  constructor
  · intro comp hcomp heq
    rw [hbw] at hcomp
    have hcomp' : comp ∈ bom.components := hcomp
    have hin : comp.bom_ref ∈ bom.components.map CdxComponent.bom_ref :=
      List.mem_map_of_mem _ hcomp'
    rw [buildComponents_refs hbc] at hin
    obtain ⟨cfg, hcfgmem, hcfgeq⟩ := List.mem_filterMap.mp hin
    by_cases hs : cfg.key ∈ _find_sub_charts config
    · rw [if_pos hs] at hcfgeq
      exact absurd hcfgeq (by simp)
    · rw [if_neg hs] at hcfgeq
      by_cases he : emitsComp mini cfg = true
      · rw [if_pos he] at hcfgeq
        obtain ⟨rc, hrc⟩ : ∃ r,
            dictFind? (bomRefsFrom u config.components 0) cfg.key = some r :=
          Option.isSome_iff_exists.mp (bomRefsFrom_complete ⟨cfg, hcfgmem, rfl⟩)
        rw [hrc] at hcfgeq
        rw [hrdep] at heq
        have hrr : rc = rdep := by
          have h1 := Option.some.inj hcfgeq
          simp only [Option.getD_some] at h1 heq
          rw [h1]
          exact heq
        rw [hrr] at hrc
        exact hs (bomRefsFrom_inj hg hrc hrdep ▸ hsubk)
      · rw [if_neg he] at hcfgeq
        exact absurd hcfgeq (by simp)
  · intro hpns hpsrc
    obtain ⟨source, hsource⟩ := Option.isSome_iff_exists.mp hpsrc
    obtain ⟨rp, hrp⟩ : ∃ r,
        dictFind? (bomRefsFrom u config.components 0) parent.key = some r :=
      Option.isSome_iff_exists.mp (bomRefsFrom_complete ⟨parent, hp, rfl⟩)
    obtain ⟨c₀, comp?, warn?, c₁, hbcomp, hmem⟩ := buildComponents_mem hbc hp hpns
    obtain ⟨pc, c₂, hcomp?, hhelm⟩ := build_component_helm_some hbcomp hpm hsource hrp
    obtain ⟨cc, hcc⟩ : ∃ cc,
        dictFind? (configIndexFrom config.components) dep.key = some cc :=
      Option.isSome_iff_exists.mp (configIndexFrom_complete hdecl)
    obtain ⟨sc, hscmem, hscref⟩ := build_helm_nested hhelm hd hsubk hrdep hcc
    refine ⟨pc, ?_, ?_, sc, hscmem, ?_⟩
    · rw [hbw]
      exact hmem pc hcomp?
    · rw [hrp, Option.getD_some]
      exact build_helm_bom_ref hhelm
    · rw [hrdep, Option.getD_some]
      exact hscref

/-- A declared Helm parent with a declared Helm sub-chart, for the C1
witness. -/
def cfgPC : BuildConfig :=
  .mk "1.0.0" "pc-app"
    [mkHelmCfg "p-chart" [.mk "c-chart" .HELM_CHART none],
     mkHelmCfg "c-chart" []]

/-- The parent's descriptor table for the C1 witness. -/
def tblPC : List ((String × String) × CdxComponent) :=
  [(("p-chart", "application/vnd.nc.helm.chart"), mkHelmSrc "p-chart")]

/-- C1 witness: in the two-chart configuration with the parent descriptor
present, the built parent carries the table identifier of `p-chart` and
nests a sub-chart carrying the table identifier of `c-chart`. -/
theorem C1_subchart_nesting_witness :
    ∃ pc ∈ bomComponents (build_manifest uW "T" cfgPC tblPC none none),
      pc.bom_ref =
        (dictFind? (bomRefsFrom uW cfgPC.components 0) ("p-chart", .HELM_CHART)).getD "" ∧
      ∃ sc ∈ (CdxComponent.components pc).getD [],
        sc.bom_ref =
          (dictFind? (bomRefsFrom uW cfgPC.components 0) ("c-chart", .HELM_CHART)).getD "" :=
  (C1_subchart_nesting uW "T" cfgPC tblPC none none
      (mkHelmCfg "p-chart" [⟨"c-chart", .HELM_CHART, none⟩]) ⟨"c-chart", .HELM_CHART, none⟩
      (by decide) (by decide) (by decide) (by decide) (by decide)
      ⟨by decide, by decide⟩ ⟨_, rfl⟩).2 (by decide) rfl
